/-
Verification of the diagonal-noise stochastic Runge–Kutta solver
(`torchsde/core/methods/diagonal/srk.py`, class `SRKDiagonal`).

Shallow embedding conventions:
* A state is a tuple of per-block arrays in the source; the per-block
  elementwise arithmetic is the numeric backend's job, so each block is
  modelled by one rational sample and a state is `List ℚ` (one entry per
  block).  Python `zip` truncates to the shortest argument; the
  combinators `zipWith3` / `zipWith4` below (and `List.zipWith`) do the
  same.
* `sqrt` is the backend primitive `math.sqrt` / `torch.sqrt`; it is
  modelled by an abstract function `sq : ℚ → ℚ` (the code only ever
  applies it, never inspects it).
* `torch.randn_like` draws one fresh standard-normal sample per block;
  the stream is modelled by an abstract `Z : ℕ → ℚ` indexed by block.
* The Brownian collaborator `bm` is an abstract path `ℚ → List ℚ`.
* `utils.compute_trapezoidal_approx` is not part of this file's source;
  per the spec it delegates to the Brownian collaborator, so it is kept
  abstract as a function `trapApprox` of `(bm, t0, y0, dt, sqrt_dt)`.
* The tableau module `srid2` is also external: the scheme is verified
  for an arbitrary tableau, which only strengthens the results.
* `assert dt > 0` raising is modelled by `Except String`.
-/
import Mathlib

namespace TorchSDE

/-- A state: one rational sample per block (tuple of per-block arrays in
the source, with elementwise backend arithmetic abstracted to one sample). -/
abbrev State := List ℚ

/-- Python `zip` over three tuples inside a generator expression:
truncates to the shortest input. -/
def zipWith3 (f : ℚ → ℚ → ℚ → ℚ) : List ℚ → List ℚ → List ℚ → List ℚ
  | a :: as, b :: bs, c :: cs => f a b c :: zipWith3 f as bs cs
  | _, _, _ => []

/-- Python `zip` over four tuples inside a generator expression:
truncates to the shortest input. -/
def zipWith4 (f : ℚ → ℚ → ℚ → ℚ → ℚ) : List ℚ → List ℚ → List ℚ → List ℚ → List ℚ
  | a :: as, b :: bs, c :: cs, d :: ds => f a b c d :: zipWith4 f as bs cs ds
  | _, _, _, _ => []

/-- Map with the block index, starting at `i`: models a generator that
draws one fresh random sample (indexed by block) per element. -/
def mapIdxFrom (f : ℕ → ℚ → ℚ) : ℕ → List ℚ → List ℚ
  | _, [] => []
  | i, x :: xs => f i x :: mapIdxFrom f (i + 1) xs

/-- Block `i` of a state (0 when out of range; all indexed claims carry
the in-range bound separately). -/
def nth (l : State) (i : ℕ) : ℚ := l.getD i 0

/-- The SRK tableau unpacked from the external `srid2` module: stage
count, node offsets `C0, C1`, stage matrices `A0, A1, B0, B1` and output
weights `alpha, beta1..beta4`.  The matrices and vectors are modelled as
total functions on indices (Python list indexing, always in range in the
source). -/
structure Tableau where
  STAGES : ℕ
  C0 : ℕ → ℚ
  C1 : ℕ → ℚ
  A0 : ℕ → ℕ → ℚ
  A1 : ℕ → ℕ → ℚ
  B0 : ℕ → ℕ → ℚ
  B1 : ℕ → ℕ → ℚ
  alpha : ℕ → ℚ
  beta1 : ℕ → ℚ
  beta2 : ℕ → ℚ
  beta3 : ℕ → ℚ
  beta4 : ℕ → ℚ

/-- The user-supplied SDE: drift `f(t, y)` and diffusion `g(t, y)`, each
returning a tuple of per-block arrays. -/
structure SDE where
  f : ℚ → State → State
  g : ℚ → State → State

/-- The per-block values of
`I_k = tuple((bm_next - bm_cur).to(y0[0]) for ... in zip(self.bm(t0 + dt), self.bm(t0)))`
(srk.py line 58); the dtype cast `.to(y0[0])` is the identity on values,
but its `y0[0]` access can raise — see `IkChecked`. -/
def Ik (bm : ℚ → State) (t0 dt : ℚ) : State :=
  List.zipWith (fun bmNext bmCur => bmNext - bmCur) (bm (t0 + dt)) (bm t0)

/-- The construction of the `I_k` tuple on line 58 including its
partiality: the generator body `(bm_next - bm_cur).to(y0[0])` evaluates
`y0[0]` once per zipped element, so a nonempty Brownian zip together
with an empty state `y0` raises `IndexError`; when the zip is empty the
body never runs and no access happens. -/
def IkChecked (bm : ℚ → State) (t0 dt : ℚ) (y0 : State) : Except String State :=
  if Ik bm t0 dt ≠ [] ∧ y0 = [] then .error "IndexError: tuple index out of range"
  else .ok (Ik bm t0 dt)

/-- `I_kk = tuple((delta_bm_ ** 2. - dt) / 2. for delta_bm_ in I_k)` (line 59). -/
def Ikk (dt : ℚ) (ik : State) : State :=
  ik.map fun d => (d ^ 2 - dt) / 2

/-- `I_kkk = tuple((delta_bm_ ** 3. - 3. * dt * delta_bm_) / 6. for delta_bm_ in I_k)`
(line 64). -/
def Ikkk (dt : ℚ) (ik : State) : State :=
  ik.map fun d => (d ^ 3 - 3 * dt * d) / 6

/-- `I_k0` (lines 60–63): trapezoidal mode delegates to
`utils.compute_trapezoidal_approx(self.bm, t0, y0, dt, sqrt_dt)`;
otherwise `tuple(dt / 2. * (delta_bm_ + torch.randn_like(delta_bm_) * sqrt_dt / math.sqrt(3)) for delta_bm_ in I_k)`. -/
def Ik0 (trapApprox : (ℚ → State) → ℚ → State → ℚ → ℚ → State) (bm : ℚ → State)
    (trapezoidal : Bool) (Z : ℕ → ℚ) (sq : ℚ → ℚ)
    (t0 : ℚ) (y0 : State) (dt sqrtDt : ℚ) (ik : State) : State :=
  if trapezoidal then trapApprox bm t0 y0 dt sqrtDt
  else mapIdxFrom (fun i d => dt / 2 * (d + Z i * sqrtDt / sq 3)) 0 ik

/-- The mutable loop state of `step`: the stage lists `H0`, `H1` built so
far and the running output `y1`. -/
structure LoopSt where
  H0 : List State
  H1 : List State
  y1 : State

/-- One iteration of the inner loop `for j in range(s)` (lines 70–81):
re-evaluates `f` and `g` at stage `j` and accumulates into the pair
`(H0s, H1s)`. -/
def innerBody (tab : Tableau) (sde : SDE) (t0 dt sqrtDt : ℚ) (ik0 : State)
    (H0 H1 : List State) (s : ℕ) (acc : State × State) (j : ℕ) : State × State :=
  let fEval := sde.f (t0 + tab.C0 j * dt) (H0.getD j [])
  let gEval := sde.g (t0 + tab.C1 j * dt) (H1.getD j [])
  (zipWith4 (fun H0s fe ge i0 => H0s + tab.A0 s j * fe * dt + tab.B0 s j * ge * i0 / dt)
      acc.1 fEval gEval ik0,
   zipWith3 (fun H1s fe ge => H1s + tab.A1 s j * fe * dt + tab.B1 s j * ge * sqrtDt)
      acc.2 fEval gEval)

/-- The inner loop of stage `s` run for `m` iterations (`m = s` in the
source), starting from `H0s = H1s = y0`. -/
def innerFold (tab : Tableau) (sde : SDE) (t0 : ℚ) (y0 : State) (dt sqrtDt : ℚ)
    (ik0 : State) (H0 H1 : List State) (s m : ℕ) : State × State :=
  (List.range m).foldl (innerBody tab sde t0 dt sqrtDt ik0 H0 H1 s) (y0, y0)

/-- One iteration of the outer loop `for s in range(STAGES)` (lines
68–97): builds `(H0s, H1s)`, appends them to the stage lists, and folds
`alpha[s]·f_eval·dt + g_weight·g_eval` into `y1`. -/
def stageBody (tab : Tableau) (sde : SDE) (t0 : ℚ) (y0 : State) (dt sqrtDt : ℚ)
    (ik ikk ik0 ikkk : State) (st : LoopSt) (s : ℕ) : LoopSt :=
  let hs := innerFold tab sde t0 y0 dt sqrtDt ik0 st.H0 st.H1 s s
  let fEval := sde.f (t0 + tab.C0 s * dt) hs.1
  let gEval := sde.g (t0 + tab.C1 s * dt) hs.2
  let gWeight := zipWith4
    (fun a b c d => tab.beta1 s * a + tab.beta2 s * b / sqrtDt + tab.beta3 s * c / dt
      + tab.beta4 s * d / dt) ik ikk ik0 ikkk
  { H0 := st.H0 ++ [hs.1], H1 := st.H1 ++ [hs.2],
    y1 := zipWith4 (fun y1 fe ge w => y1 + tab.alpha s * fe * dt + w * ge)
      st.y1 fEval gEval gWeight }

/-- The outer loop run for `k` stages (`k = STAGES` in the source),
starting from empty stage lists and `y1 = y0`. -/
def runStages (tab : Tableau) (sde : SDE) (t0 : ℚ) (y0 : State) (dt sqrtDt : ℚ)
    (ik ikk ik0 ikkk : State) (k : ℕ) : LoopSt :=
  (List.range k).foldl (stageBody tab sde t0 y0 dt sqrtDt ik ikk ik0 ikkk)
    { H0 := [], H1 := [], y1 := y0 }

/-- The final loop state of a successful `step` call: the stochastic
integrals computed on lines 56–64 fed into the stage loop. -/
def stepStages (tab : Tableau) (sde : SDE) (bm : ℚ → State)
    (trapApprox : (ℚ → State) → ℚ → State → ℚ → ℚ → State)
    (trapezoidal : Bool) (Z : ℕ → ℚ) (sq : ℚ → ℚ)
    (t0 : ℚ) (y0 : State) (dt : ℚ) : LoopSt :=
  let sqrtDt := sq dt
  let ik := Ik bm t0 dt
  runStages tab sde t0 y0 dt sqrtDt ik (Ikk dt ik)
    (Ik0 trapApprox bm trapezoidal Z sq t0 y0 dt sqrtDt ik) (Ikkk dt ik) tab.STAGES

/-- `SRKDiagonal.step(t0, y0, dt)` (lines 53–98): `assert dt > 0`, then
the `I_k` tuple construction of line 58 (whose `y0[0]` access may raise
`IndexError`), then one SRK step returning `(t0 + dt, y1)`.  An
exception from line 58 propagates unchanged. -/
def step (tab : Tableau) (sde : SDE) (bm : ℚ → State)
    (trapApprox : (ℚ → State) → ℚ → State → ℚ → ℚ → State)
    (trapezoidal : Bool) (Z : ℕ → ℚ) (sq : ℚ → ℚ)
    (t0 : ℚ) (y0 : State) (dt : ℚ) : Except String (ℚ × State) :=
  if 0 < dt then
    (IkChecked bm t0 dt y0).map
      (fun _ => (t0 + dt, (stepStages tab sde bm trapApprox trapezoidal Z sq t0 y0 dt).y1))
  else
    .error ("Underflow in dt " ++ toString dt)

/-- The configuration mapping `options`: string keys to boolean values. -/
abbrev Options := List (String × Bool)

/-- `SRKDiagonal.__init__` lines 48–51: `trapezoidal_approx = False` iff
the key is present and maps to a falsy value, else `True`. -/
def trapezoidalApproxInit (options : Options) : Bool :=
  match options.lookup "trapezoidal_approx" with
  | some b => if ¬b then false else true
  | none => true

/-- The solver object: collaborators plus the configuration-derived
`trapezoidal_approx` flag. -/
structure SRKDiagonal where
  tab : Tableau
  sde : SDE
  bm : ℚ → State
  trapezoidal_approx : Bool

/-- `SRKDiagonal.strong_order` (lines 100–102): the constant `1.5`. -/
def strong_order (_self : SRKDiagonal) : ℚ := 1.5

/-- The drift evaluation at stage `j`: `f(t0 + C0[j]·dt, H0[j])`. -/
def fAt (tab : Tableau) (sde : SDE) (t0 dt : ℚ) (H0 : List State) (j : ℕ) : State :=
  sde.f (t0 + tab.C0 j * dt) (H0.getD j [])

/-- The diffusion evaluation at stage `j`: `g(t0 + C1[j]·dt, H1[j])`. -/
def gAt (tab : Tableau) (sde : SDE) (t0 dt : ℚ) (H1 : List State) (j : ℕ) : State :=
  sde.g (t0 + tab.C1 j * dt) (H1.getD j [])

/-- Block `i` of the noise combination weight of stage `s` (lines 90–93):
`beta1[s]·I_k + beta2[s]·I_kk/sqrt(dt) + beta3[s]·I_k0/dt + beta4[s]·I_kkk/dt`. -/
def gWeightAt (tab : Tableau) (dt sqrtDt : ℚ) (ik ikk ik0 ikkk : State) (s i : ℕ) : ℚ :=
  tab.beta1 s * nth ik i + tab.beta2 s * nth ikk i / sqrtDt
    + tab.beta3 s * nth ik0 i / dt + tab.beta4 s * nth ikkk i / dt

/-! ### A deterministic Runge–Kutta update built from the drift alone
(the reference point for the zero-diffusion claim). -/

/-- The inner stage accumulation with all diffusion terms removed: only
`A0[s][j]·f_eval·dt` is added. -/
def detInnerFold (tab : Tableau) (f : ℚ → State → State) (t0 : ℚ) (y0 : State) (dt : ℚ)
    (H0 : List State) (s m : ℕ) : State :=
  (List.range m).foldl
    (fun acc j => List.zipWith (fun H0s fe => H0s + tab.A0 s j * fe * dt) acc
      (f (t0 + tab.C0 j * dt) (H0.getD j []))) y0

/-- The stage loop of a deterministic Runge–Kutta method using only the
drift `f`: stage values and `y1 += alpha[s]·f_eval·dt`.  Mentions no
Brownian data at all. -/
def detLoop (tab : Tableau) (f : ℚ → State → State) (t0 : ℚ) (y0 : State) (dt : ℚ) :
    ℕ → List State × State
  | 0 => ([], y0)
  | k + 1 =>
    let p := detLoop tab f t0 y0 dt k
    let H0s := detInnerFold tab f t0 y0 dt p.1 k k
    (p.1 ++ [H0s],
      List.zipWith (fun y1 fe => y1 + tab.alpha k * fe * dt) p.2
        (f (t0 + tab.C0 k * dt) H0s))

/-- The deterministic Runge–Kutta update of `f` alone over a full step. -/
def detRK (tab : Tableau) (f : ℚ → State → State) (t0 : ℚ) (y0 : State) (dt : ℚ) : State :=
  (detLoop tab f t0 y0 dt tab.STAGES).2

/-! ### An optimized step variant that evaluates `f` and `g` once per
stage and reuses the cached values in later inner loops. -/

/-- Loop state of the optimized variant: also caches the stage
evaluations `Fs[j] = f(t0 + C0[j]·dt, H0[j])` and
`Gs[j] = g(t0 + C1[j]·dt, H1[j])`. -/
structure LoopStOpt where
  H0 : List State
  H1 : List State
  Fs : List State
  Gs : List State
  y1 : State

/-- Inner-loop iteration of the optimized variant: reads the cached
evaluations instead of calling `f` and `g` again. -/
def innerBodyOpt (tab : Tableau) (dt sqrtDt : ℚ) (ik0 : State)
    (Fs Gs : List State) (s : ℕ) (acc : State × State) (j : ℕ) : State × State :=
  let fEval := Fs.getD j []
  let gEval := Gs.getD j []
  (zipWith4 (fun H0s fe ge i0 => H0s + tab.A0 s j * fe * dt + tab.B0 s j * ge * i0 / dt)
      acc.1 fEval gEval ik0,
   zipWith3 (fun H1s fe ge => H1s + tab.A1 s j * fe * dt + tab.B1 s j * ge * sqrtDt)
      acc.2 fEval gEval)

/-- Stage iteration of the optimized variant: one `f` call and one `g`
call per stage, appended to the caches. -/
def stageBodyOpt (tab : Tableau) (sde : SDE) (t0 : ℚ) (y0 : State) (dt sqrtDt : ℚ)
    (ik ikk ik0 ikkk : State) (st : LoopStOpt) (s : ℕ) : LoopStOpt :=
  let hs := (List.range s).foldl (innerBodyOpt tab dt sqrtDt ik0 st.Fs st.Gs s) (y0, y0)
  let fEval := sde.f (t0 + tab.C0 s * dt) hs.1
  let gEval := sde.g (t0 + tab.C1 s * dt) hs.2
  let gWeight := zipWith4
    (fun a b c d => tab.beta1 s * a + tab.beta2 s * b / sqrtDt + tab.beta3 s * c / dt
      + tab.beta4 s * d / dt) ik ikk ik0 ikkk
  { H0 := st.H0 ++ [hs.1], H1 := st.H1 ++ [hs.2],
    Fs := st.Fs ++ [fEval], Gs := st.Gs ++ [gEval],
    y1 := zipWith4 (fun y1 fe ge w => y1 + tab.alpha s * fe * dt + w * ge)
      st.y1 fEval gEval gWeight }

/-- The optimized stage loop run for `k` stages. -/
def runStagesOpt (tab : Tableau) (sde : SDE) (t0 : ℚ) (y0 : State) (dt sqrtDt : ℚ)
    (ik ikk ik0 ikkk : State) (k : ℕ) : LoopStOpt :=
  (List.range k).foldl (stageBodyOpt tab sde t0 y0 dt sqrtDt ik ikk ik0 ikkk)
    { H0 := [], H1 := [], Fs := [], Gs := [], y1 := y0 }

/-- The optimized step: identical interface to `step`, but each of `f`
and `g` is evaluated exactly once per stage. -/
def stepOpt (tab : Tableau) (sde : SDE) (bm : ℚ → State)
    (trapApprox : (ℚ → State) → ℚ → State → ℚ → ℚ → State)
    (trapezoidal : Bool) (Z : ℕ → ℚ) (sq : ℚ → ℚ)
    (t0 : ℚ) (y0 : State) (dt : ℚ) : Except String (ℚ × State) :=
  if 0 < dt then
    (IkChecked bm t0 dt y0).map (fun _ =>
      let sqrtDt := sq dt
      let ik := Ik bm t0 dt
      (t0 + dt,
        (runStagesOpt tab sde t0 y0 dt sqrtDt ik (Ikk dt ik)
          (Ik0 trapApprox bm trapezoidal Z sq t0 y0 dt sqrtDt ik) (Ikkk dt ik)
          tab.STAGES).y1))
  else
    .error ("Underflow in dt " ++ toString dt)

/-! ### An instrumented step variant that counts the drift and diffusion
evaluations performed. -/

/-- Inner-loop accumulator of the counting variant: the two stage
accumulators plus running call counters for `f` and `g`. -/
structure InnerAccN where
  H0s : State
  H1s : State
  nf : ℕ
  ng : ℕ

/-- Loop state of the counting variant. -/
structure LoopStN where
  H0 : List State
  H1 : List State
  y1 : State
  nf : ℕ
  ng : ℕ

/-- Inner-loop iteration with counting: one `f` call and one `g` call. -/
def innerBodyN (tab : Tableau) (sde : SDE) (t0 dt sqrtDt : ℚ) (ik0 : State)
    (H0 H1 : List State) (s : ℕ) (acc : InnerAccN) (j : ℕ) : InnerAccN :=
  let fEval := sde.f (t0 + tab.C0 j * dt) (H0.getD j [])
  let gEval := sde.g (t0 + tab.C1 j * dt) (H1.getD j [])
  { H0s := zipWith4 (fun H0s fe ge i0 => H0s + tab.A0 s j * fe * dt + tab.B0 s j * ge * i0 / dt)
      acc.H0s fEval gEval ik0,
    H1s := zipWith3 (fun H1s fe ge => H1s + tab.A1 s j * fe * dt + tab.B1 s j * ge * sqrtDt)
      acc.H1s fEval gEval,
    nf := acc.nf + 1, ng := acc.ng + 1 }

/-- Stage iteration with counting: the inner loop plus one more `f` call
and one more `g` call for the output update. -/
def stageBodyN (tab : Tableau) (sde : SDE) (t0 : ℚ) (y0 : State) (dt sqrtDt : ℚ)
    (ik ikk ik0 ikkk : State) (st : LoopStN) (s : ℕ) : LoopStN :=
  let hs := (List.range s).foldl (innerBodyN tab sde t0 dt sqrtDt ik0 st.H0 st.H1 s)
    { H0s := y0, H1s := y0, nf := st.nf, ng := st.ng }
  let fEval := sde.f (t0 + tab.C0 s * dt) hs.H0s
  let gEval := sde.g (t0 + tab.C1 s * dt) hs.H1s
  let gWeight := zipWith4
    (fun a b c d => tab.beta1 s * a + tab.beta2 s * b / sqrtDt + tab.beta3 s * c / dt
      + tab.beta4 s * d / dt) ik ikk ik0 ikkk
  { H0 := st.H0 ++ [hs.H0s], H1 := st.H1 ++ [hs.H1s],
    y1 := zipWith4 (fun y1 fe ge w => y1 + tab.alpha s * fe * dt + w * ge)
      st.y1 fEval gEval gWeight,
    nf := hs.nf + 1, ng := hs.ng + 1 }

/-- The counting stage loop run for `k` stages, starting from zero
counters. -/
def runStagesN (tab : Tableau) (sde : SDE) (t0 : ℚ) (y0 : State) (dt sqrtDt : ℚ)
    (ik ikk ik0 ikkk : State) (k : ℕ) : LoopStN :=
  (List.range k).foldl (stageBodyN tab sde t0 y0 dt sqrtDt ik ikk ik0 ikkk)
    { H0 := [], H1 := [], y1 := y0, nf := 0, ng := 0 }

/-- The instrumented step: the result of `step` paired with the number
of `f` calls and the number of `g` calls performed. -/
def stepCount (tab : Tableau) (sde : SDE) (bm : ℚ → State)
    (trapApprox : (ℚ → State) → ℚ → State → ℚ → ℚ → State)
    (trapezoidal : Bool) (Z : ℕ → ℚ) (sq : ℚ → ℚ)
    (t0 : ℚ) (y0 : State) (dt : ℚ) : Except String ((ℚ × State) × ℕ × ℕ) :=
  if 0 < dt then
    (IkChecked bm t0 dt y0).map (fun _ =>
      let sqrtDt := sq dt
      let ik := Ik bm t0 dt
      let fin := runStagesN tab sde t0 y0 dt sqrtDt ik (Ikk dt ik)
        (Ik0 trapApprox bm trapezoidal Z sq t0 y0 dt sqrtDt ik) (Ikkk dt ik) tab.STAGES
      ((t0 + dt, fin.y1), fin.nf, fin.ng))
  else
    .error ("Underflow in dt " ++ toString dt)

/-! ### Concrete instances used to exhibit the hypotheses of the claims
as satisfiable. -/

/-- A small two-stage tableau with every coefficient equal to 1. -/
def exTab : Tableau :=
  { STAGES := 2, C0 := fun _ => 1, C1 := fun _ => 1,
    A0 := fun _ _ => 1, A1 := fun _ _ => 1, B0 := fun _ _ => 1, B1 := fun _ _ => 1,
    alpha := fun _ => 1, beta1 := fun _ => 1, beta2 := fun _ => 1,
    beta3 := fun _ => 1, beta4 := fun _ => 1 }

/-- A concrete one-block SDE with length-preserving drift and diffusion. -/
def exSDE : SDE :=
  { f := fun t y => y.map (fun x => x + t), g := fun _ y => y.map (fun x => 2 * x) }

/-- A concrete SDE whose diffusion returns zero for every time and state. -/
def exSDEg0 : SDE :=
  { f := fun t y => y.map (fun x => x + t), g := fun _ y => y.map (fun _ => 0) }

/-- A drift returning one more block than its input state. -/
def exSDEwide : SDE :=
  { f := fun _ y => 7 :: y, g := fun _ y => y.map (fun x => 2 * x) }

/-- A concrete one-block Brownian path. -/
def exBM : ℚ → State := fun t => [t * t]

/-- A concrete one-block trapezoidal approximation collaborator. -/
def exTrap : (ℚ → State) → ℚ → State → ℚ → ℚ → State := fun _ _ _ _ _ => [5]

/-- A concrete normal-sample stream. -/
def exZ : ℕ → ℚ := fun i => (i : ℚ) + 1

/-- A concrete square-root stand-in for the backend primitive. -/
def exSq : ℚ → ℚ := fun q => q / 2

/-! ### Length and indexing lemmas for the zip combinators -/

theorem length_zipWith3 (f : ℚ → ℚ → ℚ → ℚ) :
    ∀ a b c : List ℚ, (zipWith3 f a b c).length = min a.length (min b.length c.length)
  | [], _, _ => by cases ‹List ℚ› <;> simp [zipWith3]
  | _ :: _, [], _ => by simp [zipWith3]
  | _ :: _, _ :: _, [] => by simp [zipWith3]
  | a :: as, b :: bs, c :: cs => by
    simp [zipWith3, length_zipWith3 f as bs cs, Nat.succ_min_succ]

theorem length_zipWith4 (f : ℚ → ℚ → ℚ → ℚ → ℚ) :
    ∀ a b c d : List ℚ,
      (zipWith4 f a b c d).length = min a.length (min b.length (min c.length d.length))
  | [], _, _, _ => by simp [zipWith4]
  | _ :: _, [], _, _ => by simp [zipWith4]
  | _ :: _, _ :: _, [], _ => by simp [zipWith4]
  | _ :: _, _ :: _, _ :: _, [] => by simp [zipWith4]
  | a :: as, b :: bs, c :: cs, d :: ds => by
    simp [zipWith4, length_zipWith4 f as bs cs ds, Nat.succ_min_succ]

theorem length_mapIdxFrom (f : ℕ → ℚ → ℚ) :
    ∀ (i : ℕ) (l : List ℚ), (mapIdxFrom f i l).length = l.length
  | _, [] => rfl
  | i, _ :: xs => by simp [mapIdxFrom, length_mapIdxFrom f (i + 1) xs]

theorem nth_cons_succ (x : ℚ) (xs : List ℚ) (i : ℕ) : nth (x :: xs) (i + 1) = nth xs i := rfl

theorem nth_zipWith (f : ℚ → ℚ → ℚ) :
    ∀ (a b : List ℚ) (i : ℕ), i < a.length → i < b.length →
      nth (List.zipWith f a b) i = f (nth a i) (nth b i)
  | a :: as, b :: bs, 0, _, _ => rfl
  | a :: as, b :: bs, i + 1, ha, hb => by
    simpa [List.zipWith, nth_cons_succ] using
      nth_zipWith f as bs i (Nat.lt_of_succ_lt_succ ha) (Nat.lt_of_succ_lt_succ hb)
  | [], _, i, ha, _ => absurd ha (by simp)
  | _ :: _, [], i, _, hb => absurd hb (by simp)

theorem nth_zipWith3 (f : ℚ → ℚ → ℚ → ℚ) :
    ∀ (a b c : List ℚ) (i : ℕ), i < a.length → i < b.length → i < c.length →
      nth (zipWith3 f a b c) i = f (nth a i) (nth b i) (nth c i)
  | a :: as, b :: bs, c :: cs, 0, _, _, _ => rfl
  | a :: as, b :: bs, c :: cs, i + 1, ha, hb, hc => by
    simpa [zipWith3, nth_cons_succ] using
      nth_zipWith3 f as bs cs i (Nat.lt_of_succ_lt_succ ha) (Nat.lt_of_succ_lt_succ hb)
        (Nat.lt_of_succ_lt_succ hc)
  | [], _, _, i, ha, _, _ => absurd ha (by simp)
  | _ :: _, [], _, i, _, hb, _ => absurd hb (by simp)
  | _ :: _, _ :: _, [], i, _, _, hc => absurd hc (by simp)

theorem nth_zipWith4 (f : ℚ → ℚ → ℚ → ℚ → ℚ) :
    ∀ (a b c d : List ℚ) (i : ℕ), i < a.length → i < b.length → i < c.length → i < d.length →
      nth (zipWith4 f a b c d) i = f (nth a i) (nth b i) (nth c i) (nth d i)
  | a :: as, b :: bs, c :: cs, d :: ds, 0, _, _, _, _ => rfl
  | a :: as, b :: bs, c :: cs, d :: ds, i + 1, ha, hb, hc, hd => by
    simpa [zipWith4, nth_cons_succ] using
      nth_zipWith4 f as bs cs ds i (Nat.lt_of_succ_lt_succ ha) (Nat.lt_of_succ_lt_succ hb)
        (Nat.lt_of_succ_lt_succ hc) (Nat.lt_of_succ_lt_succ hd)
  | [], _, _, _, i, ha, _, _, _ => absurd ha (by simp)
  | _ :: _, [], _, _, i, _, hb, _, _ => absurd hb (by simp)
  | _ :: _, _ :: _, [], _, i, _, _, hc, _ => absurd hc (by simp)
  | _ :: _, _ :: _, _ :: _, [], i, _, _, _, hd => absurd hd (by simp)

theorem nth_map (f : ℚ → ℚ) :
    ∀ (l : List ℚ) (i : ℕ), i < l.length → nth (l.map f) i = f (nth l i)
  | x :: xs, 0, _ => rfl
  | x :: xs, i + 1, h => by
    simpa [List.map, nth_cons_succ] using nth_map f xs i (Nat.lt_of_succ_lt_succ h)
  | [], i, h => absurd h (by simp)

theorem nth_mapIdxFrom (f : ℕ → ℚ → ℚ) :
    ∀ (k : ℕ) (l : List ℚ) (i : ℕ), i < l.length →
      nth (mapIdxFrom f k l) i = f (k + i) (nth l i)
  | k, x :: xs, 0, _ => by simp [mapIdxFrom, nth]
  | k, x :: xs, i + 1, h => by
    have := nth_mapIdxFrom f (k + 1) xs i (Nat.lt_of_succ_lt_succ h)
    simpa [mapIdxFrom, nth_cons_succ, Nat.add_assoc, Nat.add_comm 1 i] using this
  | _, [], i, h => absurd h (by simp)

theorem getD_append_lt {α : Type} (l l' : List α) (d : α) :
    ∀ j, j < l.length → (l ++ l').getD j d = l.getD j d := by
  induction l with
  | nil => intro j h; simp at h
  | cons x xs ih =>
    intro j h
    cases j with
    | zero => rfl
    | succ j => simpa [List.getD] using ih j (Nat.lt_of_succ_lt_succ h)

theorem getD_append_len {α : Type} (l : List α) (x : α) (d : α) :
    (l ++ [x]).getD l.length d = x := by
  induction l with
  | nil => rfl
  | cons y ys _ => simp [List.getD]

/-! ### The stage-loop analysis -/

section StageLoop

variable (tab : Tableau) (sde : SDE) (t0 : ℚ) (y0 : State) (dt sqrtDt : ℚ)
  (ik ikk ik0 ikkk : State) (n : ℕ)

theorem innerFold_succ (H0 H1 : List State) (s m : ℕ) :
    innerFold tab sde t0 y0 dt sqrtDt ik0 H0 H1 s (m + 1)
      = innerBody tab sde t0 dt sqrtDt ik0 H0 H1 s
          (innerFold tab sde t0 y0 dt sqrtDt ik0 H0 H1 s m) m := by
  simp [innerFold, List.range_succ]

theorem innerFold_lengths
    (hf : ∀ t y, (sde.f t y).length = y.length)
    (hg : ∀ t y, (sde.g t y).length = y.length)
    (hy0 : y0.length = n) (hik0 : ik0.length = n)
    (H0 H1 : List State) (s : ℕ)
    (hH0 : ∀ j, j < s → (H0.getD j []).length = n)
    (hH1 : ∀ j, j < s → (H1.getD j []).length = n) :
    ∀ m, m ≤ s → (innerFold tab sde t0 y0 dt sqrtDt ik0 H0 H1 s m).1.length = n
      ∧ (innerFold tab sde t0 y0 dt sqrtDt ik0 H0 H1 s m).2.length = n := by
  intro m
  induction m with
  | zero => intro _; exact ⟨hy0, hy0⟩
  | succ m ih =>
    intro hm
    have hms : m < s := Nat.lt_of_succ_le hm
    obtain ⟨h1, h2⟩ := ih (Nat.le_of_lt hms)
    rw [innerFold_succ]
    have hfe : (sde.f (t0 + tab.C0 m * dt) (H0.getD m [])).length = n := by
      rw [hf]; exact hH0 m hms
    have hge : (sde.g (t0 + tab.C1 m * dt) (H1.getD m [])).length = n := by
      rw [hg]; exact hH1 m hms
    refine ⟨?_, ?_⟩
    · show (zipWith4 _ _ _ _ _).length = n
      rw [length_zipWith4, h1, hfe, hge, hik0]
      simp
    · show (zipWith3 _ _ _ _).length = n
      rw [length_zipWith3, h2, hfe, hge]
      simp

theorem innerFold_nth
    (hf : ∀ t y, (sde.f t y).length = y.length)
    (hg : ∀ t y, (sde.g t y).length = y.length)
    (hy0 : y0.length = n) (hik0 : ik0.length = n)
    (H0 H1 : List State) (s : ℕ)
    (hH0 : ∀ j, j < s → (H0.getD j []).length = n)
    (hH1 : ∀ j, j < s → (H1.getD j []).length = n) :
    ∀ m, m ≤ s → ∀ i, i < n →
      nth (innerFold tab sde t0 y0 dt sqrtDt ik0 H0 H1 s m).1 i
        = nth y0 i + ∑ j in Finset.range m,
            (tab.A0 s j * nth (fAt tab sde t0 dt H0 j) i * dt
              + tab.B0 s j * nth (gAt tab sde t0 dt H1 j) i * nth ik0 i / dt)
      ∧ nth (innerFold tab sde t0 y0 dt sqrtDt ik0 H0 H1 s m).2 i
        = nth y0 i + ∑ j in Finset.range m,
            (tab.A1 s j * nth (fAt tab sde t0 dt H0 j) i * dt
              + tab.B1 s j * nth (gAt tab sde t0 dt H1 j) i * sqrtDt) := by
  intro m
  induction m with
  | zero => intro _ i _; simp [innerFold]
  | succ m ih =>
    intro hm i hi
    have hms : m < s := Nat.lt_of_succ_le hm
    obtain ⟨hL1, hL2⟩ := innerFold_lengths tab sde t0 y0 dt sqrtDt ik0 n
      hf hg hy0 hik0 H0 H1 s hH0 hH1 m (Nat.le_of_lt hms)
    obtain ⟨ih1, ih2⟩ := ih (Nat.le_of_lt hms) i hi
    have hfe : (sde.f (t0 + tab.C0 m * dt) (H0.getD m [])).length = n := by
      rw [hf]; exact hH0 m hms
    have hge : (sde.g (t0 + tab.C1 m * dt) (H1.getD m [])).length = n := by
      rw [hg]; exact hH1 m hms
    rw [innerFold_succ]
    constructor
    · show nth (zipWith4 _ _ _ _ _) i = _
      rw [nth_zipWith4 _ _ _ _ _ i (by rw [hL1]; exact hi) (by rw [hfe]; exact hi)
        (by rw [hge]; exact hi) (by rw [hik0]; exact hi)]
      rw [ih1, Finset.sum_range_succ, fAt, gAt]
      ring
    · show nth (zipWith3 _ _ _ _) i = _
      rw [nth_zipWith3 _ _ _ _ i (by rw [hL2]; exact hi) (by rw [hfe]; exact hi)
        (by rw [hge]; exact hi)]
      rw [ih2, Finset.sum_range_succ, fAt, gAt]
      ring

theorem runStages_succ (k : ℕ) :
    runStages tab sde t0 y0 dt sqrtDt ik ikk ik0 ikkk (k + 1)
      = stageBody tab sde t0 y0 dt sqrtDt ik ikk ik0 ikkk
          (runStages tab sde t0 y0 dt sqrtDt ik ikk ik0 ikkk k) k := by
  simp [runStages, List.range_succ]

theorem stageBody_def (st : LoopSt) (s : ℕ) :
    stageBody tab sde t0 y0 dt sqrtDt ik ikk ik0 ikkk st s
      = { H0 := st.H0 ++ [(innerFold tab sde t0 y0 dt sqrtDt ik0 st.H0 st.H1 s s).1],
          H1 := st.H1 ++ [(innerFold tab sde t0 y0 dt sqrtDt ik0 st.H0 st.H1 s s).2],
          y1 := zipWith4 (fun y1 fe ge w => y1 + tab.alpha s * fe * dt + w * ge)
            st.y1
            (sde.f (t0 + tab.C0 s * dt)
              (innerFold tab sde t0 y0 dt sqrtDt ik0 st.H0 st.H1 s s).1)
            (sde.g (t0 + tab.C1 s * dt)
              (innerFold tab sde t0 y0 dt sqrtDt ik0 st.H0 st.H1 s s).2)
            (zipWith4 (fun a b c d => tab.beta1 s * a + tab.beta2 s * b / sqrtDt
                + tab.beta3 s * c / dt + tab.beta4 s * d / dt) ik ikk ik0 ikkk) } := rfl

theorem fAt_append_lt (L : List State) (x : State) (j : ℕ) (h : j < L.length) :
    fAt tab sde t0 dt (L ++ [x]) j = fAt tab sde t0 dt L j := by
  unfold fAt; rw [getD_append_lt L [x] [] j h]

theorem fAt_append_len (L : List State) (x : State) :
    fAt tab sde t0 dt (L ++ [x]) L.length = sde.f (t0 + tab.C0 L.length * dt) x := by
  unfold fAt; rw [getD_append_len]

theorem gAt_append_lt (L : List State) (x : State) (j : ℕ) (h : j < L.length) :
    gAt tab sde t0 dt (L ++ [x]) j = gAt tab sde t0 dt L j := by
  unfold gAt; rw [getD_append_lt L [x] [] j h]

theorem gAt_append_len (L : List State) (x : State) :
    gAt tab sde t0 dt (L ++ [x]) L.length = sde.g (t0 + tab.C1 L.length * dt) x := by
  unfold gAt; rw [getD_append_len]

theorem runStages_spec
    (hf : ∀ t y, (sde.f t y).length = y.length)
    (hg : ∀ t y, (sde.g t y).length = y.length)
    (hy0 : y0.length = n) (hik : ik.length = n) (hikk : ikk.length = n)
    (hik0 : ik0.length = n) (hikkk : ikkk.length = n) :
    ∀ k,
      (runStages tab sde t0 y0 dt sqrtDt ik ikk ik0 ikkk k).H0.length = k
      ∧ (runStages tab sde t0 y0 dt sqrtDt ik ikk ik0 ikkk k).H1.length = k
      ∧ (∀ j, j < k →
          (((runStages tab sde t0 y0 dt sqrtDt ik ikk ik0 ikkk k).H0.getD j []).length = n
            ∧ ((runStages tab sde t0 y0 dt sqrtDt ik ikk ik0 ikkk k).H1.getD j []).length = n))
      ∧ (runStages tab sde t0 y0 dt sqrtDt ik ikk ik0 ikkk k).y1.length = n
      ∧ (∀ s, s < k → ∀ i, i < n →
          nth ((runStages tab sde t0 y0 dt sqrtDt ik ikk ik0 ikkk k).H0.getD s []) i
            = nth y0 i + ∑ j in Finset.range s,
                (tab.A0 s j
                    * nth (fAt tab sde t0 dt
                        (runStages tab sde t0 y0 dt sqrtDt ik ikk ik0 ikkk k).H0 j) i * dt
                  + tab.B0 s j
                    * nth (gAt tab sde t0 dt
                        (runStages tab sde t0 y0 dt sqrtDt ik ikk ik0 ikkk k).H1 j) i
                    * nth ik0 i / dt)
          ∧ nth ((runStages tab sde t0 y0 dt sqrtDt ik ikk ik0 ikkk k).H1.getD s []) i
            = nth y0 i + ∑ j in Finset.range s,
                (tab.A1 s j
                    * nth (fAt tab sde t0 dt
                        (runStages tab sde t0 y0 dt sqrtDt ik ikk ik0 ikkk k).H0 j) i * dt
                  + tab.B1 s j
                    * nth (gAt tab sde t0 dt
                        (runStages tab sde t0 y0 dt sqrtDt ik ikk ik0 ikkk k).H1 j) i
                    * sqrtDt))
      ∧ (∀ i, i < n →
          nth (runStages tab sde t0 y0 dt sqrtDt ik ikk ik0 ikkk k).y1 i
            = nth y0 i + ∑ s in Finset.range k,
                (tab.alpha s
                    * nth (fAt tab sde t0 dt
                        (runStages tab sde t0 y0 dt sqrtDt ik ikk ik0 ikkk k).H0 s) i * dt
                  + gWeightAt tab dt sqrtDt ik ikk ik0 ikkk s i
                    * nth (gAt tab sde t0 dt
                        (runStages tab sde t0 y0 dt sqrtDt ik ikk ik0 ikkk k).H1 s) i)) := by
  intro k
  induction k with
  | zero =>
    refine ⟨rfl, rfl, ?_, hy0, ?_, ?_⟩
    · intro j hj; exact absurd hj (Nat.not_lt_zero j)
    · intro s hs; exact absurd hs (Nat.not_lt_zero s)
    · intro i _; simp [runStages]
  | succ k ih =>
    obtain ⟨hH0len, hH1len, hHn, hy1n, hstage, hy1f⟩ := ih
    rw [runStages_succ, stageBody_def]
    set st := runStages tab sde t0 y0 dt sqrtDt ik ikk ik0 ikkk k with hstdef
    set hsP := innerFold tab sde t0 y0 dt sqrtDt ik0 st.H0 st.H1 k k with hhsP
    have hH0n : ∀ j, j < k → (st.H0.getD j []).length = n := fun j hj => (hHn j hj).1
    have hH1n : ∀ j, j < k → (st.H1.getD j []).length = n := fun j hj => (hHn j hj).2
    obtain ⟨hsP1len, hsP2len⟩ := innerFold_lengths tab sde t0 y0 dt sqrtDt ik0 n
      hf hg hy0 hik0 st.H0 st.H1 k hH0n hH1n k (Nat.le_refl k)
    have hfeLen : (sde.f (t0 + tab.C0 k * dt) hsP.1).length = n := by rw [hf]; exact hsP1len
    have hgeLen : (sde.g (t0 + tab.C1 k * dt) hsP.2).length = n := by rw [hg]; exact hsP2len
    have hgwLen : (zipWith4 (fun a b c d => tab.beta1 k * a + tab.beta2 k * b / sqrtDt
        + tab.beta3 k * c / dt + tab.beta4 k * d / dt) ik ikk ik0 ikkk).length = n := by
      rw [length_zipWith4, hik, hikk, hik0, hikkk]; simp
    have hgetD0_lt : ∀ j, j < k → (st.H0 ++ [hsP.1]).getD j [] = st.H0.getD j [] := by
      intro j hj
      exact getD_append_lt st.H0 [hsP.1] [] j (by rw [hH0len]; exact hj)
    have hgetD1_lt : ∀ j, j < k → (st.H1 ++ [hsP.2]).getD j [] = st.H1.getD j [] := by
      intro j hj
      exact getD_append_lt st.H1 [hsP.2] [] j (by rw [hH1len]; exact hj)
    have hgetD0_len : (st.H0 ++ [hsP.1]).getD k [] = hsP.1 := by
      have := getD_append_len st.H0 hsP.1 []
      rwa [hH0len] at this
    have hgetD1_len : (st.H1 ++ [hsP.2]).getD k [] = hsP.2 := by
      have := getD_append_len st.H1 hsP.2 []
      rwa [hH1len] at this
    have hfAt_lt : ∀ j, j < k →
        fAt tab sde t0 dt (st.H0 ++ [hsP.1]) j = fAt tab sde t0 dt st.H0 j := by
      intro j hj
      exact fAt_append_lt tab sde t0 dt st.H0 hsP.1 j (by rw [hH0len]; exact hj)
    have hgAt_lt : ∀ j, j < k →
        gAt tab sde t0 dt (st.H1 ++ [hsP.2]) j = gAt tab sde t0 dt st.H1 j := by
      intro j hj
      exact gAt_append_lt tab sde t0 dt st.H1 hsP.2 j (by rw [hH1len]; exact hj)
    have hfAt_k : fAt tab sde t0 dt (st.H0 ++ [hsP.1]) k
        = sde.f (t0 + tab.C0 k * dt) hsP.1 := by
      unfold fAt; rw [hgetD0_len]
    have hgAt_k : gAt tab sde t0 dt (st.H1 ++ [hsP.2]) k
        = sde.g (t0 + tab.C1 k * dt) hsP.2 := by
      unfold gAt; rw [hgetD1_len]
    refine ⟨?_, ?_, ?_, ?_, ?_, ?_⟩
    · show (st.H0 ++ [hsP.1]).length = k + 1
      rw [List.length_append, hH0len]; rfl
    · show (st.H1 ++ [hsP.2]).length = k + 1
      rw [List.length_append, hH1len]; rfl
    · intro j hj
      rcases Nat.lt_succ_iff_lt_or_eq.mp hj with hjk | hjk
      · show ((st.H0 ++ [hsP.1]).getD j []).length = n
          ∧ ((st.H1 ++ [hsP.2]).getD j []).length = n
        rw [hgetD0_lt j hjk, hgetD1_lt j hjk]
        exact hHn j hjk
      · subst hjk
        show ((st.H0 ++ [hsP.1]).getD j []).length = n
          ∧ ((st.H1 ++ [hsP.2]).getD j []).length = n
        rw [hgetD0_len, hgetD1_len]
        exact ⟨hsP1len, hsP2len⟩
    · show (zipWith4 _ _ _ _ _).length = n
      rw [length_zipWith4, hy1n, hfeLen, hgeLen, hgwLen]; simp
    · intro s hs i hi
      rcases Nat.lt_succ_iff_lt_or_eq.mp hs with hsk | hsk
      · obtain ⟨e0, e1⟩ := hstage s hsk i hi
        constructor
        · show nth ((st.H0 ++ [hsP.1]).getD s []) i = _
          rw [hgetD0_lt s hsk, e0]
          congr 1
          refine Finset.sum_congr rfl (fun j hj => ?_)
          rw [Finset.mem_range] at hj
          rw [hfAt_lt j (Nat.lt_trans hj hsk), hgAt_lt j (Nat.lt_trans hj hsk)]
        · show nth ((st.H1 ++ [hsP.2]).getD s []) i = _
          rw [hgetD1_lt s hsk, e1]
          congr 1
          refine Finset.sum_congr rfl (fun j hj => ?_)
          rw [Finset.mem_range] at hj
          rw [hfAt_lt j (Nat.lt_trans hj hsk), hgAt_lt j (Nat.lt_trans hj hsk)]
      · subst hsk
        obtain ⟨e0, e1⟩ := innerFold_nth tab sde t0 y0 dt sqrtDt ik0 n
          hf hg hy0 hik0 st.H0 st.H1 s hH0n hH1n s (Nat.le_refl s) i hi
        constructor
        · show nth ((st.H0 ++ [hsP.1]).getD s []) i = _
          rw [hgetD0_len, e0]
          congr 1
          refine Finset.sum_congr rfl (fun j hj => ?_)
          rw [Finset.mem_range] at hj
          rw [hfAt_lt j hj, hgAt_lt j hj]
        · show nth ((st.H1 ++ [hsP.2]).getD s []) i = _
          rw [hgetD1_len, e1]
          congr 1
          refine Finset.sum_congr rfl (fun j hj => ?_)
          rw [Finset.mem_range] at hj
          rw [hfAt_lt j hj, hgAt_lt j hj]
    · intro i hi
      show nth (zipWith4 _ _ _ _ _) i = _
      rw [nth_zipWith4 _ _ _ _ _ i (by rw [hy1n]; exact hi) (by rw [hfeLen]; exact hi)
        (by rw [hgeLen]; exact hi) (by rw [hgwLen]; exact hi)]
      rw [nth_zipWith4 _ _ _ _ _ i (by rw [hik]; exact hi) (by rw [hikk]; exact hi)
        (by rw [hik0]; exact hi) (by rw [hikkk]; exact hi)]
      rw [hy1f i hi, Finset.sum_range_succ]
      rw [hfAt_k, hgAt_k]
      have hsum : (∑ s in Finset.range k,
            (tab.alpha s * nth (fAt tab sde t0 dt (st.H0 ++ [hsP.1]) s) i * dt
              + gWeightAt tab dt sqrtDt ik ikk ik0 ikkk s i
                * nth (gAt tab sde t0 dt (st.H1 ++ [hsP.2]) s) i))
          = ∑ s in Finset.range k,
            (tab.alpha s * nth (fAt tab sde t0 dt st.H0 s) i * dt
              + gWeightAt tab dt sqrtDt ik ikk ik0 ikkk s i
                * nth (gAt tab sde t0 dt st.H1 s) i) := by
        refine Finset.sum_congr rfl (fun s hs => ?_)
        rw [Finset.mem_range] at hs
        rw [hfAt_lt s hs, hgAt_lt s hs]
      rw [hsum, gWeightAt]
      ring

end StageLoop

/-! ### Lengths of the stochastic integrals -/

theorem Ik_length (bm : ℚ → State) (t0 dt : ℚ) (n : ℕ) (hbm : ∀ t, (bm t).length = n) :
    (Ik bm t0 dt).length = n := by
  simp [Ik, hbm]

theorem Ikk_length (dt : ℚ) (ik : State) : (Ikk dt ik).length = ik.length := by
  simp [Ikk]

theorem Ikkk_length (dt : ℚ) (ik : State) : (Ikkk dt ik).length = ik.length := by
  simp [Ikkk]

theorem Ik0_length (trapApprox : (ℚ → State) → ℚ → State → ℚ → ℚ → State)
    (bm : ℚ → State) (trapezoidal : Bool) (Z : ℕ → ℚ) (sq : ℚ → ℚ)
    (t0 : ℚ) (y0 : State) (dt sqrtDt : ℚ) (ik : State) (n : ℕ)
    (hik : ik.length = n)
    (htrap : ∀ b t y d sd, (trapApprox b t y d sd).length = n) :
    (Ik0 trapApprox bm trapezoidal Z sq t0 y0 dt sqrtDt ik).length = n := by
  cases trapezoidal <;> simp [Ik0, length_mapIdxFrom, hik, htrap]

theorem IkChecked_ok_of_ne_nil (bm : ℚ → State) (t0 dt : ℚ) (y0 : State) (hy0 : y0 ≠ []) :
    IkChecked bm t0 dt y0 = .ok (Ik bm t0 dt) := by
  unfold IkChecked
  rw [if_neg]
  intro h
  exact hy0 h.2

theorem IkChecked_ok_of_length (bm : ℚ → State) (t0 dt : ℚ) (y0 : State) (n : ℕ)
    (hbm : ∀ t, (bm t).length = n) (hy0 : y0.length = n) :
    IkChecked bm t0 dt y0 = .ok (Ik bm t0 dt) := by
  cases y0 with
  | nil =>
    have hn : n = 0 := by simpa using hy0.symm
    have hik : Ik bm t0 dt = [] := by
      apply List.length_eq_zero.mp
      rw [Ik_length bm t0 dt n hbm, hn]
    unfold IkChecked
    rw [if_neg]
    intro h
    exact h.1 hik
  | cons a as => exact IkChecked_ok_of_ne_nil bm t0 dt (a :: as) (List.cons_ne_nil a as)

/-! ### The claims -/

/-- C3: for every Brownian path and every `dt > 0`, the derived
stochastic integrals computed by `step` satisfy exactly, per block,
`I_kk = (I_k² − dt)/2` and `I_kkk = (I_k³ − 3·dt·I_k)/6`, where `I_k` is
the per-block difference `bm(t0 + dt) − bm(t0)`. -/
theorem claim_C3_derived_integrals (bm : ℚ → State) (t0 dt : ℚ) (hdt : 0 < dt) :
    ∀ i, i < (Ik bm t0 dt).length →
      nth (Ikk dt (Ik bm t0 dt)) i = ((nth (Ik bm t0 dt) i) ^ 2 - dt) / 2
      ∧ nth (Ikkk dt (Ik bm t0 dt)) i
          = ((nth (Ik bm t0 dt) i) ^ 3 - 3 * dt * nth (Ik bm t0 dt) i) / 6
      ∧ nth (Ik bm t0 dt) i = nth (bm (t0 + dt)) i - nth (bm t0) i := by
  intro i hi
  have hlen : (Ik bm t0 dt).length = min (bm (t0 + dt)).length (bm t0).length := by
    simp [Ik]
  have hi1 : i < (bm (t0 + dt)).length := by
    have := hi; rw [hlen] at this; exact lt_of_lt_of_le this (Nat.min_le_left _ _)
  have hi2 : i < (bm t0).length := by
    have := hi; rw [hlen] at this; exact lt_of_lt_of_le this (Nat.min_le_right _ _)
  refine ⟨?_, ?_, ?_⟩
  · exact nth_map _ _ i hi
  · exact nth_map _ _ i hi
  · exact nth_zipWith _ _ _ i hi1 hi2

/-- C3 witness: the integrals evaluated on a concrete path and step. -/
theorem claim_C3_derived_integrals_witness :
    nth (Ikk 4 (Ik exBM 0 4)) 0 = ((nth (Ik exBM 0 4) 0) ^ 2 - 4) / 2
    ∧ nth (Ikkk 4 (Ik exBM 0 4)) 0
        = ((nth (Ik exBM 0 4) 0) ^ 3 - 3 * 4 * nth (Ik exBM 0 4) 0) / 6
    ∧ nth (Ik exBM 0 4) 0 = nth (exBM (0 + 4)) 0 - nth (exBM 0) 0 :=
  claim_C3_derived_integrals exBM 0 4 (by norm_num) 0 (by decide)

/-- C4: the configuration key `trapezoidal_approx` defaults to `true`
(absent key, or any present value, reduces to a `getD true` lookup);
with the flag `false`, `I_k0` is the Gaussian correction
`dt/2 · (I_k + Z·sqrt(dt)/sqrt(3))` per block with `Z` a fresh
standard-normal sample per block; with the flag `true`, `I_k0` delegates
to the trapezoidal approximation over the Brownian collaborator. -/
theorem claim_C4_trapezoidal_approx_config :
    (∀ options : Options,
      trapezoidalApproxInit options = (options.lookup "trapezoidal_approx").getD true)
    ∧ (∀ (trapApprox : (ℚ → State) → ℚ → State → ℚ → ℚ → State) (bm : ℚ → State)
        (Z : ℕ → ℚ) (sq : ℚ → ℚ) (t0 : ℚ) (y0 : State) (dt sqrtDt : ℚ) (ik : State),
        Ik0 trapApprox bm false Z sq t0 y0 dt sqrtDt ik
          = mapIdxFrom (fun i d => dt / 2 * (d + Z i * sqrtDt / sq 3)) 0 ik
        ∧ (∀ i, i < ik.length →
            nth (Ik0 trapApprox bm false Z sq t0 y0 dt sqrtDt ik) i
              = dt / 2 * (nth ik i + Z i * sqrtDt / sq 3))
        ∧ Ik0 trapApprox bm true Z sq t0 y0 dt sqrtDt ik
          = trapApprox bm t0 y0 dt sqrtDt) := by
  constructor
  · intro options
    unfold trapezoidalApproxInit
    cases h : options.lookup "trapezoidal_approx" with
    | none => rfl
    | some b => cases b <;> simp
  · intro trapApprox bm Z sq t0 y0 dt sqrtDt ik
    refine ⟨rfl, ?_, rfl⟩
    intro i hi
    show nth (mapIdxFrom _ 0 ik) i = _
    rw [nth_mapIdxFrom _ 0 ik i hi]
    simp

/-- C4 witness: the configuration default and both `I_k0` modes
evaluated at concrete inputs. -/
theorem claim_C4_trapezoidal_approx_config_witness :
    trapezoidalApproxInit [] = true
    ∧ trapezoidalApproxInit [("trapezoidal_approx", false)] = false
    ∧ trapezoidalApproxInit [("trapezoidal_approx", true)] = true
    ∧ nth (Ik0 exTrap exBM false exZ exSq 0 [1] 4 2 (Ik exBM 0 4)) 0
        = 4 / 2 * (nth (Ik exBM 0 4) 0 + exZ 0 * 2 / exSq 3)
    ∧ Ik0 exTrap exBM true exZ exSq 0 [1] 4 2 (Ik exBM 0 4) = exTrap exBM 0 [1] 4 2 :=
  ⟨claim_C4_trapezoidal_approx_config.1 [],
   claim_C4_trapezoidal_approx_config.1 [("trapezoidal_approx", false)],
   claim_C4_trapezoidal_approx_config.1 [("trapezoidal_approx", true)],
   (claim_C4_trapezoidal_approx_config.2 exTrap exBM exZ exSq 0 [1] 4 2
     (Ik exBM 0 4)).2.1 0 (by decide),
   (claim_C4_trapezoidal_approx_config.2 exTrap exBM exZ exSq 0 [1] 4 2
     (Ik exBM 0 4)).2.2⟩

/-- C5: calling `step` with `dt ≤ 0` fails with the precondition error
for every drift, diffusion and Brownian collaborator (so no evaluation
of any of them can occur or influence the result), the counting variant
fails identically before recording any evaluation, and the error is the
returned (propagated) value. -/
theorem claim_C5_dt_precondition (tab : Tableau) (sde : SDE) (bm : ℚ → State)
    (trapApprox : (ℚ → State) → ℚ → State → ℚ → ℚ → State)
    (trapezoidal : Bool) (Z : ℕ → ℚ) (sq : ℚ → ℚ)
    (t0 : ℚ) (y0 : State) (dt : ℚ) (hdt : dt ≤ 0) :
    step tab sde bm trapApprox trapezoidal Z sq t0 y0 dt
      = .error ("Underflow in dt " ++ toString dt)
    ∧ stepCount tab sde bm trapApprox trapezoidal Z sq t0 y0 dt
      = .error ("Underflow in dt " ++ toString dt) := by
  have h : ¬ (0 < dt) := not_lt.mpr hdt
  exact ⟨by simp [step, h], by simp [stepCount, h]⟩

/-- C5 witness: `step` with `dt = 0` on concrete data raises the
precondition failure. -/
theorem claim_C5_dt_precondition_witness :
    step exTab exSDE exBM exTrap true exZ exSq 0 [1] 0
      = .error ("Underflow in dt " ++ toString (0 : ℚ))
    ∧ stepCount exTab exSDE exBM exTrap true exZ exSq 0 [1] 0
      = .error ("Underflow in dt " ++ toString (0 : ℚ)) :=
  claim_C5_dt_precondition exTab exSDE exBM exTrap true exZ exSq 0 [1] 0 le_rfl

/-- C7: with `trapezoidal_approx = true`, for a fixed Brownian path and
fixed `t0, y0, dt`, the derived integrals and the step output do not
depend on the auxiliary normal-sample stream — the only random source
besides the path — so two invocations on the same path coincide
(`I_k`, `I_kk`, `I_kkk` take no random input at all by definition). -/
theorem claim_C7_trapezoidal_reproducibility (tab : Tableau) (sde : SDE) (bm : ℚ → State)
    (trapApprox : (ℚ → State) → ℚ → State → ℚ → ℚ → State)
    (Z1 Z2 : ℕ → ℚ) (sq : ℚ → ℚ) (t0 : ℚ) (y0 : State) (dt : ℚ) :
    Ik0 trapApprox bm true Z1 sq t0 y0 dt (sq dt) (Ik bm t0 dt)
      = Ik0 trapApprox bm true Z2 sq t0 y0 dt (sq dt) (Ik bm t0 dt)
    ∧ stepStages tab sde bm trapApprox true Z1 sq t0 y0 dt
      = stepStages tab sde bm trapApprox true Z2 sq t0 y0 dt
    ∧ step tab sde bm trapApprox true Z1 sq t0 y0 dt
      = step tab sde bm trapApprox true Z2 sq t0 y0 dt := by
  refine ⟨rfl, rfl, rfl⟩

/-- C8: `strong_order` returns exactly `1.5` for every solver instance,
regardless of its state or configuration. -/
theorem claim_C8_strong_order (solver : SRKDiagonal) :
    strong_order solver = 1.5 := rfl

/-- C1: for every `dt > 0` (and block-structure-respecting `f`, `g`,
Brownian collaborator), `step(t0, y0, dt)` returns `(t0 + dt, y1)` with
`y1`, per block, equal to `y0` plus the sum over all stages `s` of
`alpha[s]·f(t0 + C0[s]·dt, H0[s])·dt + g_weight[s]·g(t0 + C1[s]·dt, H1[s])`,
where `g_weight[s] = beta1[s]·I_k + beta2[s]·I_kk/sqrt(dt)
+ beta3[s]·I_k0/dt + beta4[s]·I_kkk/dt`. -/
theorem claim_C1_step_output (tab : Tableau) (sde : SDE) (bm : ℚ → State)
    (trapApprox : (ℚ → State) → ℚ → State → ℚ → ℚ → State)
    (trapezoidal : Bool) (Z : ℕ → ℚ) (sq : ℚ → ℚ)
    (t0 : ℚ) (y0 : State) (dt : ℚ) (n : ℕ)
    (hdt : 0 < dt)
    (hf : ∀ t y, (sde.f t y).length = y.length)
    (hg : ∀ t y, (sde.g t y).length = y.length)
    (hy0 : y0.length = n)
    (hbm : ∀ t, (bm t).length = n)
    (htrap : ∀ b t y d sd, (trapApprox b t y d sd).length = n) :
    step tab sde bm trapApprox trapezoidal Z sq t0 y0 dt
      = .ok (t0 + dt, (stepStages tab sde bm trapApprox trapezoidal Z sq t0 y0 dt).y1)
    ∧ (stepStages tab sde bm trapApprox trapezoidal Z sq t0 y0 dt).y1.length = n
    ∧ (∀ i, i < n →
        nth (stepStages tab sde bm trapApprox trapezoidal Z sq t0 y0 dt).y1 i
          = nth y0 i + ∑ s in Finset.range tab.STAGES,
              (tab.alpha s * nth (sde.f (t0 + tab.C0 s * dt)
                    ((stepStages tab sde bm trapApprox trapezoidal Z sq t0 y0 dt).H0.getD
                      s [])) i * dt
                + gWeightAt tab dt (sq dt) (Ik bm t0 dt) (Ikk dt (Ik bm t0 dt))
                    (Ik0 trapApprox bm trapezoidal Z sq t0 y0 dt (sq dt) (Ik bm t0 dt))
                    (Ikkk dt (Ik bm t0 dt)) s i
                  * nth (sde.g (t0 + tab.C1 s * dt)
                      ((stepStages tab sde bm trapApprox trapezoidal Z sq t0 y0 dt).H1.getD
                        s [])) i)) := by
  have hik : (Ik bm t0 dt).length = n := Ik_length bm t0 dt n hbm
  have hikk : (Ikk dt (Ik bm t0 dt)).length = n := by rw [Ikk_length]; exact hik
  have hikkk : (Ikkk dt (Ik bm t0 dt)).length = n := by rw [Ikkk_length]; exact hik
  have hik0 : (Ik0 trapApprox bm trapezoidal Z sq t0 y0 dt (sq dt) (Ik bm t0 dt)).length = n :=
    Ik0_length trapApprox bm trapezoidal Z sq t0 y0 dt (sq dt) (Ik bm t0 dt) n hik htrap
  obtain ⟨-, -, -, hy1len, -, hy1f⟩ :=
    runStages_spec tab sde t0 y0 dt (sq dt) (Ik bm t0 dt) (Ikk dt (Ik bm t0 dt))
      (Ik0 trapApprox bm trapezoidal Z sq t0 y0 dt (sq dt) (Ik bm t0 dt))
      (Ikkk dt (Ik bm t0 dt)) n hf hg hy0 hik hikk hik0 hikkk tab.STAGES
  refine ⟨by simp [step, hdt, IkChecked_ok_of_length bm t0 dt y0 n hbm hy0, Except.map],
    hy1len, ?_⟩
  intro i hi
  have := hy1f i hi
  simpa [fAt, gAt, stepStages] using this

/-- C1 witness: the step on concrete data, with all block-structure
hypotheses discharged. -/
theorem claim_C1_step_output_witness :
    step exTab exSDE exBM exTrap true exZ exSq 0 [1] 4
      = .ok (0 + 4, (stepStages exTab exSDE exBM exTrap true exZ exSq 0 [1] 4).y1)
    ∧ (stepStages exTab exSDE exBM exTrap true exZ exSq 0 [1] 4).y1.length = 1
    ∧ (∀ i, i < 1 →
        nth (stepStages exTab exSDE exBM exTrap true exZ exSq 0 [1] 4).y1 i
          = nth [1] i + ∑ s in Finset.range exTab.STAGES,
              (exTab.alpha s * nth (exSDE.f (0 + exTab.C0 s * 4)
                    ((stepStages exTab exSDE exBM exTrap true exZ exSq 0 [1] 4).H0.getD
                      s [])) i * 4
                + gWeightAt exTab 4 (exSq 4) (Ik exBM 0 4) (Ikk 4 (Ik exBM 0 4))
                    (Ik0 exTrap exBM true exZ exSq 0 [1] 4 (exSq 4) (Ik exBM 0 4))
                    (Ikkk 4 (Ik exBM 0 4)) s i
                  * nth (exSDE.g (0 + exTab.C1 s * 4)
                      ((stepStages exTab exSDE exBM exTrap true exZ exSq 0 [1] 4).H1.getD
                        s [])) i)) :=
  claim_C1_step_output exTab exSDE exBM exTrap true exZ exSq 0 [1] 4 1
    (by norm_num) (fun t y => by simp [exSDE]) (fun t y => by simp [exSDE])
    rfl (fun t => rfl) (fun b t y d sd => rfl)

/-- C2: each stage value satisfies, per block,
`H0[s] = y0 + Σ_{j<s} (A0[s][j]·f(t0 + C0[j]·dt, H0[j])·dt
+ B0[s][j]·g(t0 + C1[j]·dt, H1[j])·I_k0/dt)` and
`H1[s] = y0 + Σ_{j<s} (A1[s][j]·f(t0 + C0[j]·dt, H0[j])·dt
+ B1[s][j]·g(t0 + C1[j]·dt, H1[j])·sqrt(dt))`; in particular each stage
depends only on strictly earlier stages. -/
theorem claim_C2_stage_values (tab : Tableau) (sde : SDE) (bm : ℚ → State)
    (trapApprox : (ℚ → State) → ℚ → State → ℚ → ℚ → State)
    (trapezoidal : Bool) (Z : ℕ → ℚ) (sq : ℚ → ℚ)
    (t0 : ℚ) (y0 : State) (dt : ℚ) (n : ℕ)
    (hdt : 0 < dt)
    (hf : ∀ t y, (sde.f t y).length = y.length)
    (hg : ∀ t y, (sde.g t y).length = y.length)
    (hy0 : y0.length = n)
    (hbm : ∀ t, (bm t).length = n)
    (htrap : ∀ b t y d sd, (trapApprox b t y d sd).length = n) :
    ∀ s, s < tab.STAGES → ∀ i, i < n →
      nth ((stepStages tab sde bm trapApprox trapezoidal Z sq t0 y0 dt).H0.getD s []) i
        = nth y0 i + ∑ j in Finset.range s,
            (tab.A0 s j * nth (sde.f (t0 + tab.C0 j * dt)
                  ((stepStages tab sde bm trapApprox trapezoidal Z sq t0 y0 dt).H0.getD
                    j [])) i * dt
              + tab.B0 s j * nth (sde.g (t0 + tab.C1 j * dt)
                  ((stepStages tab sde bm trapApprox trapezoidal Z sq t0 y0 dt).H1.getD
                    j [])) i
                * nth (Ik0 trapApprox bm trapezoidal Z sq t0 y0 dt (sq dt) (Ik bm t0 dt)) i
                / dt)
      ∧ nth ((stepStages tab sde bm trapApprox trapezoidal Z sq t0 y0 dt).H1.getD s []) i
        = nth y0 i + ∑ j in Finset.range s,
            (tab.A1 s j * nth (sde.f (t0 + tab.C0 j * dt)
                  ((stepStages tab sde bm trapApprox trapezoidal Z sq t0 y0 dt).H0.getD
                    j [])) i * dt
              + tab.B1 s j * nth (sde.g (t0 + tab.C1 j * dt)
                  ((stepStages tab sde bm trapApprox trapezoidal Z sq t0 y0 dt).H1.getD
                    j [])) i * sq dt) := by
  have hik : (Ik bm t0 dt).length = n := Ik_length bm t0 dt n hbm
  have hikk : (Ikk dt (Ik bm t0 dt)).length = n := by rw [Ikk_length]; exact hik
  have hikkk : (Ikkk dt (Ik bm t0 dt)).length = n := by rw [Ikkk_length]; exact hik
  have hik0 : (Ik0 trapApprox bm trapezoidal Z sq t0 y0 dt (sq dt) (Ik bm t0 dt)).length = n :=
    Ik0_length trapApprox bm trapezoidal Z sq t0 y0 dt (sq dt) (Ik bm t0 dt) n hik htrap
  obtain ⟨-, -, -, -, hstage, -⟩ :=
    runStages_spec tab sde t0 y0 dt (sq dt) (Ik bm t0 dt) (Ikk dt (Ik bm t0 dt))
      (Ik0 trapApprox bm trapezoidal Z sq t0 y0 dt (sq dt) (Ik bm t0 dt))
      (Ikkk dt (Ik bm t0 dt)) n hf hg hy0 hik hikk hik0 hikkk tab.STAGES
  intro s hs i hi
  have := hstage s hs i hi
  simpa [fAt, gAt, stepStages] using this

/-- C2 witness: the stage formulas on concrete data at stage 1, block 0. -/
theorem claim_C2_stage_values_witness :
    nth ((stepStages exTab exSDE exBM exTrap true exZ exSq 0 [1] 4).H0.getD 1 []) 0
      = nth [1] 0 + ∑ j in Finset.range 1,
          (exTab.A0 1 j * nth (exSDE.f (0 + exTab.C0 j * 4)
                ((stepStages exTab exSDE exBM exTrap true exZ exSq 0 [1] 4).H0.getD j [])) 0 * 4
            + exTab.B0 1 j * nth (exSDE.g (0 + exTab.C1 j * 4)
                ((stepStages exTab exSDE exBM exTrap true exZ exSq 0 [1] 4).H1.getD j [])) 0
              * nth (Ik0 exTrap exBM true exZ exSq 0 [1] 4 (exSq 4) (Ik exBM 0 4)) 0 / 4)
    ∧ nth ((stepStages exTab exSDE exBM exTrap true exZ exSq 0 [1] 4).H1.getD 1 []) 0
      = nth [1] 0 + ∑ j in Finset.range 1,
          (exTab.A1 1 j * nth (exSDE.f (0 + exTab.C0 j * 4)
                ((stepStages exTab exSDE exBM exTrap true exZ exSq 0 [1] 4).H0.getD j [])) 0 * 4
            + exTab.B1 1 j * nth (exSDE.g (0 + exTab.C1 j * 4)
                ((stepStages exTab exSDE exBM exTrap true exZ exSq 0 [1] 4).H1.getD j [])) 0
              * exSq 4) :=
  claim_C2_stage_values exTab exSDE exBM exTrap true exZ exSq 0 [1] 4 1
    (by norm_num) (fun t y => by simp [exSDE]) (fun t y => by simp [exSDE])
    rfl (fun t => rfl) (fun b t y d sd => rfl) 1 (by decide) 0 (by decide)

theorem runStages_y1_length_le (tab : Tableau) (sde : SDE) (t0 : ℚ) (y0 : State)
    (dt sqrtDt : ℚ) (ik ikk ik0 ikkk : State) :
    ∀ k, (runStages tab sde t0 y0 dt sqrtDt ik ikk ik0 ikkk k).y1.length ≤ y0.length := by
  intro k
  induction k with
  | zero => exact Nat.le_refl _
  | succ k ih =>
    rw [runStages_succ, stageBody_def]
    show (zipWith4 _ _ _ _ _).length ≤ y0.length
    rw [length_zipWith4]
    exact le_trans (Nat.min_le_left _ _) ih

/-- C10 counterexample: the claim that `step` never fails on a
block-count mismatch is false — with an empty state and a nonempty
Brownian tuple, the `y0[0]` dtype access inside line 58's generator
raises `IndexError`, which `step` propagates. -/
theorem claim_C10_zip_truncation_counterexample :
    step exTab exSDE exBM exTrap true exZ exSq 0 ([] : State) 4
      = .error "IndexError: tuple index out of range" := by
  have h : IkChecked exBM 0 4 ([] : State) = .error "IndexError: tuple index out of range" := by
    unfold IkChecked
    rw [if_pos]
    exact ⟨by decide, rfl⟩
  norm_num [step, h, Except.map]

/-- C10 (amended): provided `y0` has at least one block (so the `y0[0]`
dtype access on line 58 succeeds), `step` never fails on a block-count
mismatch between `y0`, the Brownian blocks and the tuples returned by
`f` and `g` — with no further block-structure hypothesis it returns
`.ok` for `dt > 0`; the output has at most as many blocks as `y0`
(excess blocks are silently dropped), and every per-block accumulation
zips down to the shortest of its inputs. -/
theorem claim_C10_zip_truncation (tab : Tableau) (sde : SDE) (bm : ℚ → State)
    (trapApprox : (ℚ → State) → ℚ → State → ℚ → ℚ → State)
    (trapezoidal : Bool) (Z : ℕ → ℚ) (sq : ℚ → ℚ)
    (t0 : ℚ) (y0 : State) (dt : ℚ) (hdt : 0 < dt) (hy0 : y0 ≠ []) :
    step tab sde bm trapApprox trapezoidal Z sq t0 y0 dt
      = .ok (t0 + dt, (stepStages tab sde bm trapApprox trapezoidal Z sq t0 y0 dt).y1)
    ∧ (stepStages tab sde bm trapApprox trapezoidal Z sq t0 y0 dt).y1.length ≤ y0.length
    ∧ (∀ (q : ℚ → ℚ → ℚ → ℚ → ℚ) (a b c d : List ℚ),
        (zipWith4 q a b c d).length = min a.length (min b.length (min c.length d.length)))
    ∧ (∀ (q : ℚ → ℚ → ℚ → ℚ) (a b c : List ℚ),
        (zipWith3 q a b c).length = min a.length (min b.length c.length)) := by
  refine ⟨by simp [step, hdt, IkChecked_ok_of_ne_nil bm t0 dt y0 hy0, Except.map], ?_,
    length_zipWith4, length_zipWith3⟩
  exact runStages_y1_length_le tab sde t0 y0 dt (sq dt) (Ik bm t0 dt)
    (Ikk dt (Ik bm t0 dt))
    (Ik0 trapApprox bm trapezoidal Z sq t0 y0 dt (sq dt) (Ik bm t0 dt))
    (Ikkk dt (Ik bm t0 dt)) tab.STAGES

/-- C10 witness: a drift returning an extra block, a one-block Brownian
path and a two-block state still produce `.ok`, and the output is
silently truncated to one block. -/
theorem claim_C10_zip_truncation_witness :
    step exTab exSDEwide exBM exTrap true exZ exSq 0 [1, 2] 4
      = .ok (0 + 4, (stepStages exTab exSDEwide exBM exTrap true exZ exSq 0 [1, 2] 4).y1)
    ∧ (stepStages exTab exSDEwide exBM exTrap true exZ exSq 0 [1, 2] 4).y1.length
        ≤ (([1, 2] : State)).length
    ∧ (stepStages exTab exSDEwide exBM exTrap true exZ exSq 0 [1, 2] 4).y1 = [49726 / 3] :=
  ⟨(claim_C10_zip_truncation exTab exSDEwide exBM exTrap true exZ exSq 0 [1, 2] 4
      (by norm_num) (List.cons_ne_nil 1 [2])).1,
   (claim_C10_zip_truncation exTab exSDEwide exBM exTrap true exZ exSq 0 [1, 2] 4
      (by norm_num) (List.cons_ne_nil 1 [2])).2.1,
   by norm_num [stepStages, runStages, stageBody, innerFold, innerBody, Ik, Ikk, Ikkk, Ik0,
     zipWith4, zipWith3, exTab, exSDEwide, exBM, exTrap, exZ, exSq, mapIdxFrom,
     List.range_succ]⟩

/-! ### Zero-diffusion collapse -/

theorem zipWith4_zero3 (f4 : ℚ → ℚ → ℚ → ℚ → ℚ) (q : ℚ → ℚ → ℚ)
    (hq : ∀ h fe i0, f4 h fe 0 i0 = q h fe) :
    ∀ a b c d : List ℚ, (∀ x ∈ c, x = 0) → a.length ≤ c.length → a.length ≤ d.length →
      zipWith4 f4 a b c d = List.zipWith q a b
  | [], b, c, d, _, _, _ => by cases b <;> cases c <;> cases d <;> rfl
  | a :: as, [], c, d, _, _, _ => by cases c <;> cases d <;> rfl
  | a :: as, b :: bs, [], d, _, hlc, _ => absurd hlc (by simp)
  | a :: as, b :: bs, c :: cs, [], _, _, hld => absurd hld (by simp)
  | a :: as, b :: bs, c :: cs, d :: ds, hc, hlc, hld => by
    have hc0 : c = 0 := hc c (List.mem_cons_self c cs)
    show f4 a b c d :: zipWith4 f4 as bs cs ds = q a b :: List.zipWith q as bs
    rw [hc0, hq a b d,
      zipWith4_zero3 f4 q hq as bs cs ds (fun x hx => hc x (List.mem_cons_of_mem c hx))
        (Nat.le_of_succ_le_succ hlc) (Nat.le_of_succ_le_succ hld)]

theorem detInnerFold_succ (tab : Tableau) (f : ℚ → State → State) (t0 : ℚ) (y0 : State)
    (dt : ℚ) (H0 : List State) (s m : ℕ) :
    detInnerFold tab f t0 y0 dt H0 s (m + 1)
      = List.zipWith (fun H0s fe => H0s + tab.A0 s m * fe * dt)
          (detInnerFold tab f t0 y0 dt H0 s m) (f (t0 + tab.C0 m * dt) (H0.getD m [])) := by
  simp [detInnerFold, List.range_succ]

theorem detInnerFold_length (tab : Tableau) (f : ℚ → State → State) (t0 : ℚ) (y0 : State)
    (dt : ℚ) (H0 : List State) (s : ℕ) (n : ℕ)
    (hf : ∀ t y, (f t y).length = y.length) (hy0 : y0.length = n)
    (hH0 : ∀ j, j < s → (H0.getD j []).length = n) :
    ∀ m, m ≤ s → (detInnerFold tab f t0 y0 dt H0 s m).length = n := by
  intro m
  induction m with
  | zero => intro _; exact hy0
  | succ m ih =>
    intro hm
    have hms : m < s := Nat.lt_of_succ_le hm
    rw [detInnerFold_succ, List.length_zipWith, ih (Nat.le_of_lt hms), hf]
    rw [hH0 m hms]
    simp

theorem detLoop_spec (tab : Tableau) (f : ℚ → State → State) (t0 : ℚ) (y0 : State)
    (dt : ℚ) (n : ℕ)
    (hf : ∀ t y, (f t y).length = y.length) (hy0 : y0.length = n) :
    ∀ k,
      (detLoop tab f t0 y0 dt k).1.length = k
      ∧ (∀ j, j < k → ((detLoop tab f t0 y0 dt k).1.getD j []).length = n)
      ∧ (detLoop tab f t0 y0 dt k).2.length = n
      ∧ (∀ i, i < n →
          nth (detLoop tab f t0 y0 dt k).2 i
            = nth y0 i + ∑ s in Finset.range k,
                tab.alpha s
                  * nth (f (t0 + tab.C0 s * dt) ((detLoop tab f t0 y0 dt k).1.getD s [])) i
                  * dt) := by
  intro k
  induction k with
  | zero =>
    refine ⟨rfl, ?_, hy0, ?_⟩
    · intro j hj; exact absurd hj (Nat.not_lt_zero j)
    · intro i _; simp [detLoop]
  | succ k ih =>
    obtain ⟨hlen, hgetd, hy1len, hy1f⟩ := ih
    have hH0s : (detInnerFold tab f t0 y0 dt (detLoop tab f t0 y0 dt k).1 k k).length = n :=
      detInnerFold_length tab f t0 y0 dt (detLoop tab f t0 y0 dt k).1 k n hf hy0 hgetd k
        (Nat.le_refl k)
    have hfeLen : (f (t0 + tab.C0 k * dt)
        (detInnerFold tab f t0 y0 dt (detLoop tab f t0 y0 dt k).1 k k)).length = n := by
      rw [hf]; exact hH0s
    have hfst : (detLoop tab f t0 y0 dt (k + 1)).1
        = (detLoop tab f t0 y0 dt k).1
          ++ [detInnerFold tab f t0 y0 dt (detLoop tab f t0 y0 dt k).1 k k] := rfl
    have hsnd : (detLoop tab f t0 y0 dt (k + 1)).2
        = List.zipWith (fun y1 fe => y1 + tab.alpha k * fe * dt) (detLoop tab f t0 y0 dt k).2
            (f (t0 + tab.C0 k * dt)
              (detInnerFold tab f t0 y0 dt (detLoop tab f t0 y0 dt k).1 k k)) := rfl
    have hgd_lt : ∀ j, j < k → (detLoop tab f t0 y0 dt (k + 1)).1.getD j []
        = (detLoop tab f t0 y0 dt k).1.getD j [] := by
      intro j hj
      rw [hfst]
      exact getD_append_lt _ _ [] j (by rw [hlen]; exact hj)
    have hgd_k : (detLoop tab f t0 y0 dt (k + 1)).1.getD k []
        = detInnerFold tab f t0 y0 dt (detLoop tab f t0 y0 dt k).1 k k := by
      rw [hfst]
      have := getD_append_len (detLoop tab f t0 y0 dt k).1
        (detInnerFold tab f t0 y0 dt (detLoop tab f t0 y0 dt k).1 k k) []
      rwa [hlen] at this
    refine ⟨?_, ?_, ?_, ?_⟩
    · rw [hfst, List.length_append, hlen]; rfl
    · intro j hj
      rcases Nat.lt_succ_iff_lt_or_eq.mp hj with hjk | hjk
      · rw [hgd_lt j hjk]; exact hgetd j hjk
      · subst hjk; rw [hgd_k]; exact hH0s
    · rw [hsnd, List.length_zipWith, hy1len, hfeLen]; simp
    · intro i hi
      rw [hsnd, nth_zipWith _ _ _ i (by rw [hy1len]; exact hi) (by rw [hfeLen]; exact hi)]
      rw [hy1f i hi, Finset.sum_range_succ]
      have hsum : (∑ s in Finset.range k,
            tab.alpha s
              * nth (f (t0 + tab.C0 s * dt) ((detLoop tab f t0 y0 dt (k + 1)).1.getD s [])) i
              * dt)
          = ∑ s in Finset.range k,
            tab.alpha s
              * nth (f (t0 + tab.C0 s * dt) ((detLoop tab f t0 y0 dt k).1.getD s [])) i
              * dt := by
        refine Finset.sum_congr rfl (fun s hs => ?_)
        rw [Finset.mem_range] at hs
        rw [hgd_lt s hs]
      rw [hsum, hgd_k]
      ring

theorem innerFold_g0 (tab : Tableau) (sde : SDE) (t0 : ℚ) (y0 : State) (dt sqrtDt : ℚ)
    (ik0 : State) (n : ℕ)
    (hf : ∀ t y, (sde.f t y).length = y.length)
    (hg0 : ∀ t y, sde.g t y = y.map (fun _ => 0))
    (hy0 : y0.length = n) (hik0 : ik0.length = n)
    (H0 H1 : List State) (s : ℕ)
    (hH0 : ∀ j, j < s → (H0.getD j []).length = n)
    (hH1 : ∀ j, j < s → (H1.getD j []).length = n) :
    ∀ m, m ≤ s →
      (innerFold tab sde t0 y0 dt sqrtDt ik0 H0 H1 s m).1
          = detInnerFold tab sde.f t0 y0 dt H0 s m
      ∧ (innerFold tab sde t0 y0 dt sqrtDt ik0 H0 H1 s m).2.length = n := by
  intro m
  induction m with
  | zero => intro _; exact ⟨rfl, hy0⟩
  | succ m ih =>
    intro hm
    have hms : m < s := Nat.lt_of_succ_le hm
    obtain ⟨ih1, ih2⟩ := ih (Nat.le_of_lt hms)
    have hfold1 : (innerFold tab sde t0 y0 dt sqrtDt ik0 H0 H1 s m).1.length = n := by
      rw [ih1]
      exact detInnerFold_length tab sde.f t0 y0 dt H0 s n hf hy0 hH0 m (Nat.le_of_lt hms)
    have hge : sde.g (t0 + tab.C1 m * dt) (H1.getD m [])
        = (H1.getD m []).map (fun _ => 0) := hg0 _ _
    have hgeLen : ((H1.getD m []).map (fun _ => (0 : ℚ))).length = n := by
      rw [List.length_map]; exact hH1 m hms
    have hfeLen : (sde.f (t0 + tab.C0 m * dt) (H0.getD m [])).length = n := by
      rw [hf]; exact hH0 m hms
    rw [innerFold_succ]
    constructor
    · show zipWith4 _ _ _ _ _ = _
      rw [hge]
      rw [zipWith4_zero3 _ (fun H0s fe => H0s + tab.A0 s m * fe * dt)
        (fun h fe i0 => by ring) _ _ _ _ (by simp)
        (by rw [hfold1, hgeLen]) (by rw [hfold1, hik0])]
      rw [detInnerFold_succ, ih1]
    · show (zipWith3 _ _ _ _).length = n
      rw [hge, length_zipWith3, ih2, hfeLen, hgeLen]
      simp

theorem runStages_g0 (tab : Tableau) (sde : SDE) (t0 : ℚ) (y0 : State) (dt sqrtDt : ℚ)
    (ik ikk ik0 ikkk : State) (n : ℕ)
    (hf : ∀ t y, (sde.f t y).length = y.length)
    (hg0 : ∀ t y, sde.g t y = y.map (fun _ => 0))
    (hy0 : y0.length = n) (hik : ik.length = n) (hikk : ikk.length = n)
    (hik0 : ik0.length = n) (hikkk : ikkk.length = n) :
    ∀ k,
      (runStages tab sde t0 y0 dt sqrtDt ik ikk ik0 ikkk k).H0 = (detLoop tab sde.f t0 y0 dt k).1
      ∧ (runStages tab sde t0 y0 dt sqrtDt ik ikk ik0 ikkk k).y1 = (detLoop tab sde.f t0 y0 dt k).2
      ∧ (runStages tab sde t0 y0 dt sqrtDt ik ikk ik0 ikkk k).H1.length = k
      ∧ (∀ j, j < k →
          ((runStages tab sde t0 y0 dt sqrtDt ik ikk ik0 ikkk k).H1.getD j []).length = n) := by
  intro k
  induction k with
  | zero =>
    refine ⟨rfl, rfl, rfl, ?_⟩
    intro j hj; exact absurd hj (Nat.not_lt_zero j)
  | succ k ih =>
    obtain ⟨ihH0, ihy1, ihH1len, ihH1⟩ := ih
    obtain ⟨hdlen, hdgetd, hdy1len, -⟩ := detLoop_spec tab sde.f t0 y0 dt n hf hy0 k
    have hH0n : ∀ j, j < k →
        (((runStages tab sde t0 y0 dt sqrtDt ik ikk ik0 ikkk k).H0.getD j []).length = n) := by
      intro j hj; rw [ihH0]; exact hdgetd j hj
    obtain ⟨hinner1, hinner2len⟩ := innerFold_g0 tab sde t0 y0 dt sqrtDt ik0 n hf hg0 hy0 hik0
      (runStages tab sde t0 y0 dt sqrtDt ik ikk ik0 ikkk k).H0
      (runStages tab sde t0 y0 dt sqrtDt ik ikk ik0 ikkk k).H1 k hH0n ihH1 k (Nat.le_refl k)
    have hinner1' : (innerFold tab sde t0 y0 dt sqrtDt ik0
        (runStages tab sde t0 y0 dt sqrtDt ik ikk ik0 ikkk k).H0
        (runStages tab sde t0 y0 dt sqrtDt ik ikk ik0 ikkk k).H1 k k).1
          = detInnerFold tab sde.f t0 y0 dt (detLoop tab sde.f t0 y0 dt k).1 k k := by
      rw [hinner1, ihH0]
    have hH0slen : (innerFold tab sde t0 y0 dt sqrtDt ik0
        (runStages tab sde t0 y0 dt sqrtDt ik ikk ik0 ikkk k).H0
        (runStages tab sde t0 y0 dt sqrtDt ik ikk ik0 ikkk k).H1 k k).1.length = n := by
      rw [hinner1']
      exact detInnerFold_length tab sde.f t0 y0 dt (detLoop tab sde.f t0 y0 dt k).1 k n
        hf hy0 hdgetd k (Nat.le_refl k)
    rw [runStages_succ, stageBody_def]
    have hge : sde.g (t0 + tab.C1 k * dt)
        (innerFold tab sde t0 y0 dt sqrtDt ik0
          (runStages tab sde t0 y0 dt sqrtDt ik ikk ik0 ikkk k).H0
          (runStages tab sde t0 y0 dt sqrtDt ik ikk ik0 ikkk k).H1 k k).2
        = (innerFold tab sde t0 y0 dt sqrtDt ik0
            (runStages tab sde t0 y0 dt sqrtDt ik ikk ik0 ikkk k).H0
            (runStages tab sde t0 y0 dt sqrtDt ik ikk ik0 ikkk k).H1 k k).2.map
            (fun _ => 0) := hg0 _ _
    refine ⟨?_, ?_, ?_, ?_⟩
    · show (runStages tab sde t0 y0 dt sqrtDt ik ikk ik0 ikkk k).H0 ++ _
        = (detLoop tab sde.f t0 y0 dt (k + 1)).1
      rw [hinner1', ihH0]
      rfl
    · show zipWith4 _ _ _ _ _ = (detLoop tab sde.f t0 y0 dt (k + 1)).2
      rw [hge]
      rw [zipWith4_zero3 _ (fun y1 fe => y1 + tab.alpha k * fe * dt)
        (fun h fe i0 => by ring) _ _ _ _ (by simp)
        (by rw [ihy1, hdy1len, List.length_map, hinner2len])
        (by
          rw [ihy1, hdy1len, length_zipWith4, hik, hikk, hik0, hikkk]
          simp)]
      rw [ihy1, hinner1']
      rfl
    · show ((runStages tab sde t0 y0 dt sqrtDt ik ikk ik0 ikkk k).H1 ++ _).length = k + 1
      rw [List.length_append, ihH1len]
      rfl
    · intro j hj
      show (((runStages tab sde t0 y0 dt sqrtDt ik ikk ik0 ikkk k).H1 ++ _).getD j []).length = n
      rcases Nat.lt_succ_iff_lt_or_eq.mp hj with hjk | hjk
      · rw [getD_append_lt _ _ [] j (by rw [ihH1len]; exact hjk)]
        exact ihH1 j hjk
      · subst hjk
        have := getD_append_len (runStages tab sde t0 y0 dt sqrtDt ik ikk ik0 ikkk j).H1
          (innerFold tab sde t0 y0 dt sqrtDt ik0
            (runStages tab sde t0 y0 dt sqrtDt ik ikk ik0 ikkk j).H0
            (runStages tab sde t0 y0 dt sqrtDt ik ikk ik0 ikkk j).H1 j j).2 []
        rw [ihH1len] at this
        rw [this]
        exact hinner2len

/-- C6: if the diffusion returns zero for every time and state, the step
output for `dt > 0` is the deterministic Runge–Kutta update built from
`f` alone — `detRK` mentions no Brownian data (`I_k`, `I_kk`, `I_k0`,
`I_kkk`, the path, the normal samples) at all — and per block it equals
`y0` plus the sum over stages of `alpha[s]·f(t0 + C0[s]·dt, H0[s])·dt`. -/
theorem claim_C6_zero_diffusion (tab : Tableau) (sde : SDE) (bm : ℚ → State)
    (trapApprox : (ℚ → State) → ℚ → State → ℚ → ℚ → State)
    (trapezoidal : Bool) (Z : ℕ → ℚ) (sq : ℚ → ℚ)
    (t0 : ℚ) (y0 : State) (dt : ℚ) (n : ℕ)
    (hdt : 0 < dt)
    (hg0 : ∀ t y, sde.g t y = y.map (fun _ => 0))
    (hf : ∀ t y, (sde.f t y).length = y.length)
    (hy0 : y0.length = n)
    (hbm : ∀ t, (bm t).length = n)
    (htrap : ∀ b t y d sd, (trapApprox b t y d sd).length = n) :
    step tab sde bm trapApprox trapezoidal Z sq t0 y0 dt
      = .ok (t0 + dt, detRK tab sde.f t0 y0 dt)
    ∧ (∀ i, i < n →
        nth (detRK tab sde.f t0 y0 dt) i
          = nth y0 i + ∑ s in Finset.range tab.STAGES,
              tab.alpha s * nth (sde.f (t0 + tab.C0 s * dt)
                ((detLoop tab sde.f t0 y0 dt tab.STAGES).1.getD s [])) i * dt) := by
  have hik : (Ik bm t0 dt).length = n := Ik_length bm t0 dt n hbm
  have hikk : (Ikk dt (Ik bm t0 dt)).length = n := by rw [Ikk_length]; exact hik
  have hikkk : (Ikkk dt (Ik bm t0 dt)).length = n := by rw [Ikkk_length]; exact hik
  have hik0 : (Ik0 trapApprox bm trapezoidal Z sq t0 y0 dt (sq dt) (Ik bm t0 dt)).length = n :=
    Ik0_length trapApprox bm trapezoidal Z sq t0 y0 dt (sq dt) (Ik bm t0 dt) n hik htrap
  obtain ⟨-, hy1eq, -, -⟩ :=
    runStages_g0 tab sde t0 y0 dt (sq dt) (Ik bm t0 dt) (Ikk dt (Ik bm t0 dt))
      (Ik0 trapApprox bm trapezoidal Z sq t0 y0 dt (sq dt) (Ik bm t0 dt))
      (Ikkk dt (Ik bm t0 dt)) n hf hg0 hy0 hik hikk hik0 hikkk tab.STAGES
  have hys : (stepStages tab sde bm trapApprox trapezoidal Z sq t0 y0 dt).y1
      = detRK tab sde.f t0 y0 dt := hy1eq
  constructor
  · rw [show step tab sde bm trapApprox trapezoidal Z sq t0 y0 dt
        = .ok (t0 + dt, (stepStages tab sde bm trapApprox trapezoidal Z sq t0 y0 dt).y1)
      from by simp [step, hdt, IkChecked_ok_of_length bm t0 dt y0 n hbm hy0, Except.map]]
    rw [hys]
  · obtain ⟨-, -, -, h4⟩ := detLoop_spec tab sde.f t0 y0 dt n hf hy0 tab.STAGES
    exact h4

/-- C6 witness: zero-diffusion step on concrete data, with the concrete
deterministic output evaluated. -/
theorem claim_C6_zero_diffusion_witness :
    (step exTab exSDEg0 exBM exTrap true exZ exSq 0 [1] 4
        = .ok (0 + 4, detRK exTab exSDEg0.f 0 [1] 4)
      ∧ (∀ i, i < 1 →
          nth (detRK exTab exSDEg0.f 0 [1] 4) i
            = nth [1] i + ∑ s in Finset.range exTab.STAGES,
                exTab.alpha s * nth (exSDEg0.f (0 + exTab.C0 s * 4)
                  ((detLoop exTab exSDEg0.f 0 [1] 4 exTab.STAGES).1.getD s [])) i * 4))
    ∧ detRK exTab exSDEg0.f 0 [1] 4 = [121] :=
  ⟨claim_C6_zero_diffusion exTab exSDEg0 exBM exTrap true exZ exSq 0 [1] 4 1
      (by norm_num) (fun t y => rfl) (fun t y => by simp [exSDEg0]) rfl
      (fun t => rfl) (fun b t y d sd => rfl),
   by norm_num [detRK, detLoop, detInnerFold, exTab, exSDEg0, List.range_succ]⟩

/-! ### Equivalence with the optimized and the counting variants -/

section Variants

variable (tab : Tableau) (sde : SDE) (t0 : ℚ) (y0 : State) (dt sqrtDt : ℚ)
  (ik ikk ik0 ikkk : State)

theorem runStages_H_length :
    ∀ k, (runStages tab sde t0 y0 dt sqrtDt ik ikk ik0 ikkk k).H0.length = k
      ∧ (runStages tab sde t0 y0 dt sqrtDt ik ikk ik0 ikkk k).H1.length = k := by
  intro k
  induction k with
  | zero => exact ⟨rfl, rfl⟩
  | succ k ih =>
    rw [runStages_succ, stageBody_def]
    set r := runStages tab sde t0 y0 dt sqrtDt ik ikk ik0 ikkk k with hrdef
    set hsP := innerFold tab sde t0 y0 dt sqrtDt ik0 r.H0 r.H1 k k with hhsP
    refine ⟨?_, ?_⟩
    · show (r.H0 ++ [hsP.1]).length = k + 1
      rw [List.length_append, ih.1]; rfl
    · show (r.H1 ++ [hsP.2]).length = k + 1
      rw [List.length_append, ih.2]; rfl

theorem runStagesOpt_succ (k : ℕ) :
    runStagesOpt tab sde t0 y0 dt sqrtDt ik ikk ik0 ikkk (k + 1)
      = stageBodyOpt tab sde t0 y0 dt sqrtDt ik ikk ik0 ikkk
          (runStagesOpt tab sde t0 y0 dt sqrtDt ik ikk ik0 ikkk k) k := by
  simp [runStagesOpt, List.range_succ]

theorem innerFoldOpt_eq (Fs Gs H0 H1 : List State) (s : ℕ)
    (hFs : ∀ j, j < s → Fs.getD j [] = sde.f (t0 + tab.C0 j * dt) (H0.getD j []))
    (hGs : ∀ j, j < s → Gs.getD j [] = sde.g (t0 + tab.C1 j * dt) (H1.getD j [])) :
    ∀ m, m ≤ s →
      (List.range m).foldl (innerBodyOpt tab dt sqrtDt ik0 Fs Gs s) (y0, y0)
        = innerFold tab sde t0 y0 dt sqrtDt ik0 H0 H1 s m := by
  intro m
  induction m with
  | zero => intro _; rfl
  | succ m ih =>
    intro hm
    have hms : m < s := Nat.lt_of_succ_le hm
    rw [List.range_succ, List.foldl_append, List.foldl_cons, List.foldl_nil,
      ih (Nat.le_of_lt hms), innerFold_succ]
    show innerBodyOpt _ _ _ _ _ _ _ _ _ = innerBody _ _ _ _ _ _ _ _ _ _ _
    unfold innerBodyOpt innerBody
    rw [hFs m hms, hGs m hms]

theorem stageBodyOpt_def (st : LoopStOpt) (s : ℕ) :
    stageBodyOpt tab sde t0 y0 dt sqrtDt ik ikk ik0 ikkk st s
      = { H0 := st.H0 ++
            [((List.range s).foldl (innerBodyOpt tab dt sqrtDt ik0 st.Fs st.Gs s) (y0, y0)).1],
          H1 := st.H1 ++
            [((List.range s).foldl (innerBodyOpt tab dt sqrtDt ik0 st.Fs st.Gs s) (y0, y0)).2],
          Fs := st.Fs ++ [sde.f (t0 + tab.C0 s * dt)
            ((List.range s).foldl (innerBodyOpt tab dt sqrtDt ik0 st.Fs st.Gs s) (y0, y0)).1],
          Gs := st.Gs ++ [sde.g (t0 + tab.C1 s * dt)
            ((List.range s).foldl (innerBodyOpt tab dt sqrtDt ik0 st.Fs st.Gs s) (y0, y0)).2],
          y1 := zipWith4 (fun y1 fe ge w => y1 + tab.alpha s * fe * dt + w * ge)
            st.y1
            (sde.f (t0 + tab.C0 s * dt)
              ((List.range s).foldl (innerBodyOpt tab dt sqrtDt ik0 st.Fs st.Gs s) (y0, y0)).1)
            (sde.g (t0 + tab.C1 s * dt)
              ((List.range s).foldl (innerBodyOpt tab dt sqrtDt ik0 st.Fs st.Gs s) (y0, y0)).2)
            (zipWith4 (fun a b c d => tab.beta1 s * a + tab.beta2 s * b / sqrtDt
              + tab.beta3 s * c / dt + tab.beta4 s * d / dt) ik ikk ik0 ikkk) } := rfl

theorem runStagesOpt_spec :
    ∀ k,
      (runStagesOpt tab sde t0 y0 dt sqrtDt ik ikk ik0 ikkk k).H0
          = (runStages tab sde t0 y0 dt sqrtDt ik ikk ik0 ikkk k).H0
      ∧ (runStagesOpt tab sde t0 y0 dt sqrtDt ik ikk ik0 ikkk k).H1
          = (runStages tab sde t0 y0 dt sqrtDt ik ikk ik0 ikkk k).H1
      ∧ (runStagesOpt tab sde t0 y0 dt sqrtDt ik ikk ik0 ikkk k).y1
          = (runStages tab sde t0 y0 dt sqrtDt ik ikk ik0 ikkk k).y1
      ∧ (runStagesOpt tab sde t0 y0 dt sqrtDt ik ikk ik0 ikkk k).Fs.length = k
      ∧ (runStagesOpt tab sde t0 y0 dt sqrtDt ik ikk ik0 ikkk k).Gs.length = k
      ∧ (∀ j, j < k →
          (runStagesOpt tab sde t0 y0 dt sqrtDt ik ikk ik0 ikkk k).Fs.getD j []
              = sde.f (t0 + tab.C0 j * dt)
                  ((runStages tab sde t0 y0 dt sqrtDt ik ikk ik0 ikkk k).H0.getD j [])
            ∧ (runStagesOpt tab sde t0 y0 dt sqrtDt ik ikk ik0 ikkk k).Gs.getD j []
              = sde.g (t0 + tab.C1 j * dt)
                  ((runStages tab sde t0 y0 dt sqrtDt ik ikk ik0 ikkk k).H1.getD j [])) := by
  intro k
  induction k with
  | zero =>
    refine ⟨rfl, rfl, rfl, rfl, rfl, ?_⟩
    intro j hj; exact absurd hj (Nat.not_lt_zero j)
  | succ k ih =>
    obtain ⟨ihH0, ihH1, ihy1, ihFsLen, ihGsLen, ihCache⟩ := ih
    obtain ⟨hrH0len, hrH1len⟩ := runStages_H_length tab sde t0 y0 dt sqrtDt ik ikk ik0 ikkk k
    rw [runStagesOpt_succ, runStages_succ, stageBodyOpt_def, stageBody_def]
    set o := runStagesOpt tab sde t0 y0 dt sqrtDt ik ikk ik0 ikkk k with hodef
    set r := runStages tab sde t0 y0 dt sqrtDt ik ikk ik0 ikkk k with hrdef
    have hfold : (List.range k).foldl (innerBodyOpt tab dt sqrtDt ik0 o.Fs o.Gs k) (y0, y0)
        = innerFold tab sde t0 y0 dt sqrtDt ik0 r.H0 r.H1 k k :=
      innerFoldOpt_eq tab sde t0 y0 dt sqrtDt ik0 o.Fs o.Gs r.H0 r.H1 k
        (fun j hj => (ihCache j hj).1) (fun j hj => (ihCache j hj).2) k (Nat.le_refl k)
    rw [hfold]
    set hsP := innerFold tab sde t0 y0 dt sqrtDt ik0 r.H0 r.H1 k k with hhsP
    refine ⟨?_, ?_, ?_, ?_, ?_, ?_⟩
    · show o.H0 ++ [hsP.1] = r.H0 ++ [hsP.1]
      rw [ihH0]
    · show o.H1 ++ [hsP.2] = r.H1 ++ [hsP.2]
      rw [ihH1]
    · show zipWith4 _ o.y1 _ _ _ = zipWith4 _ r.y1 _ _ _
      rw [ihy1]
    · show (o.Fs ++ [sde.f (t0 + tab.C0 k * dt) hsP.1]).length = k + 1
      rw [List.length_append, ihFsLen]; rfl
    · show (o.Gs ++ [sde.g (t0 + tab.C1 k * dt) hsP.2]).length = k + 1
      rw [List.length_append, ihGsLen]; rfl
    · intro j hj
      rcases Nat.lt_succ_iff_lt_or_eq.mp hj with hjk | hjk
      · constructor
        · show (o.Fs ++ [sde.f (t0 + tab.C0 k * dt) hsP.1]).getD j []
            = sde.f (t0 + tab.C0 j * dt) ((r.H0 ++ [hsP.1]).getD j [])
          rw [getD_append_lt _ _ [] j (by rw [ihFsLen]; exact hjk),
            getD_append_lt _ _ [] j (by rw [hrH0len]; exact hjk)]
          exact (ihCache j hjk).1
        · show (o.Gs ++ [sde.g (t0 + tab.C1 k * dt) hsP.2]).getD j []
            = sde.g (t0 + tab.C1 j * dt) ((r.H1 ++ [hsP.2]).getD j [])
          rw [getD_append_lt _ _ [] j (by rw [ihGsLen]; exact hjk),
            getD_append_lt _ _ [] j (by rw [hrH1len]; exact hjk)]
          exact (ihCache j hjk).2
      · subst hjk
        constructor
        · show (o.Fs ++ [sde.f (t0 + tab.C0 j * dt) hsP.1]).getD j []
            = sde.f (t0 + tab.C0 j * dt) ((r.H0 ++ [hsP.1]).getD j [])
          have h1 := getD_append_len o.Fs (sde.f (t0 + tab.C0 j * dt) hsP.1) []
          rw [ihFsLen] at h1
          have h2 := getD_append_len r.H0 hsP.1 []
          rw [hrH0len] at h2
          rw [h1, h2]
        · show (o.Gs ++ [sde.g (t0 + tab.C1 j * dt) hsP.2]).getD j []
            = sde.g (t0 + tab.C1 j * dt) ((r.H1 ++ [hsP.2]).getD j [])
          have h1 := getD_append_len o.Gs (sde.g (t0 + tab.C1 j * dt) hsP.2) []
          rw [ihGsLen] at h1
          have h2 := getD_append_len r.H1 hsP.2 []
          rw [hrH1len] at h2
          rw [h1, h2]

theorem runStagesN_succ (k : ℕ) :
    runStagesN tab sde t0 y0 dt sqrtDt ik ikk ik0 ikkk (k + 1)
      = stageBodyN tab sde t0 y0 dt sqrtDt ik ikk ik0 ikkk
          (runStagesN tab sde t0 y0 dt sqrtDt ik ikk ik0 ikkk k) k := by
  simp [runStagesN, List.range_succ]

theorem innerFoldN_eq (H0 H1 : List State) (s : ℕ) (a b : ℕ) :
    ∀ m,
      (List.range m).foldl (innerBodyN tab sde t0 dt sqrtDt ik0 H0 H1 s)
          { H0s := y0, H1s := y0, nf := a, ng := b }
        = { H0s := (innerFold tab sde t0 y0 dt sqrtDt ik0 H0 H1 s m).1,
            H1s := (innerFold tab sde t0 y0 dt sqrtDt ik0 H0 H1 s m).2,
            nf := a + m, ng := b + m } := by
  intro m
  induction m with
  | zero => rfl
  | succ m ih =>
    rw [List.range_succ, List.foldl_append, List.foldl_cons, List.foldl_nil, ih,
      innerFold_succ]
    rfl

theorem stageBodyN_def (st : LoopStN) (s : ℕ) :
    stageBodyN tab sde t0 y0 dt sqrtDt ik ikk ik0 ikkk st s
      = { H0 := st.H0 ++
            [((List.range s).foldl (innerBodyN tab sde t0 dt sqrtDt ik0 st.H0 st.H1 s)
              { H0s := y0, H1s := y0, nf := st.nf, ng := st.ng }).H0s],
          H1 := st.H1 ++
            [((List.range s).foldl (innerBodyN tab sde t0 dt sqrtDt ik0 st.H0 st.H1 s)
              { H0s := y0, H1s := y0, nf := st.nf, ng := st.ng }).H1s],
          y1 := zipWith4 (fun y1 fe ge w => y1 + tab.alpha s * fe * dt + w * ge)
            st.y1
            (sde.f (t0 + tab.C0 s * dt)
              ((List.range s).foldl (innerBodyN tab sde t0 dt sqrtDt ik0 st.H0 st.H1 s)
                { H0s := y0, H1s := y0, nf := st.nf, ng := st.ng }).H0s)
            (sde.g (t0 + tab.C1 s * dt)
              ((List.range s).foldl (innerBodyN tab sde t0 dt sqrtDt ik0 st.H0 st.H1 s)
                { H0s := y0, H1s := y0, nf := st.nf, ng := st.ng }).H1s)
            (zipWith4 (fun a b c d => tab.beta1 s * a + tab.beta2 s * b / sqrtDt
              + tab.beta3 s * c / dt + tab.beta4 s * d / dt) ik ikk ik0 ikkk),
          nf := ((List.range s).foldl (innerBodyN tab sde t0 dt sqrtDt ik0 st.H0 st.H1 s)
            { H0s := y0, H1s := y0, nf := st.nf, ng := st.ng }).nf + 1,
          ng := ((List.range s).foldl (innerBodyN tab sde t0 dt sqrtDt ik0 st.H0 st.H1 s)
            { H0s := y0, H1s := y0, nf := st.nf, ng := st.ng }).ng + 1 } := rfl

theorem runStagesN_spec :
    ∀ k,
      (runStagesN tab sde t0 y0 dt sqrtDt ik ikk ik0 ikkk k).H0
          = (runStages tab sde t0 y0 dt sqrtDt ik ikk ik0 ikkk k).H0
      ∧ (runStagesN tab sde t0 y0 dt sqrtDt ik ikk ik0 ikkk k).H1
          = (runStages tab sde t0 y0 dt sqrtDt ik ikk ik0 ikkk k).H1
      ∧ (runStagesN tab sde t0 y0 dt sqrtDt ik ikk ik0 ikkk k).y1
          = (runStages tab sde t0 y0 dt sqrtDt ik ikk ik0 ikkk k).y1
      ∧ (runStagesN tab sde t0 y0 dt sqrtDt ik ikk ik0 ikkk k).nf = k * (k + 1) / 2
      ∧ (runStagesN tab sde t0 y0 dt sqrtDt ik ikk ik0 ikkk k).ng = k * (k + 1) / 2 := by
  intro k
  induction k with
  | zero => exact ⟨rfl, rfl, rfl, rfl, rfl⟩
  | succ k ih =>
    obtain ⟨ihH0, ihH1, ihy1, ihnf, ihng⟩ := ih
    rw [runStagesN_succ, runStages_succ, stageBodyN_def, stageBody_def]
    set c := runStagesN tab sde t0 y0 dt sqrtDt ik ikk ik0 ikkk k with hcdef
    set r := runStages tab sde t0 y0 dt sqrtDt ik ikk ik0 ikkk k with hrdef
    have hfold : (List.range k).foldl (innerBodyN tab sde t0 dt sqrtDt ik0 c.H0 c.H1 k)
        { H0s := y0, H1s := y0, nf := c.nf, ng := c.ng }
        = { H0s := (innerFold tab sde t0 y0 dt sqrtDt ik0 r.H0 r.H1 k k).1,
            H1s := (innerFold tab sde t0 y0 dt sqrtDt ik0 r.H0 r.H1 k k).2,
            nf := c.nf + k, ng := c.ng + k } := by
      rw [ihH0, ihH1]
      exact innerFoldN_eq tab sde t0 y0 dt sqrtDt ik0 r.H0 r.H1 k c.nf c.ng k
    rw [hfold]
    set hsP := innerFold tab sde t0 y0 dt sqrtDt ik0 r.H0 r.H1 k k with hhsP
    refine ⟨?_, ?_, ?_, ?_, ?_⟩
    · show c.H0 ++ [hsP.1] = r.H0 ++ [hsP.1]
      rw [ihH0]
    · show c.H1 ++ [hsP.2] = r.H1 ++ [hsP.2]
      rw [ihH1]
    · show zipWith4 _ c.y1 _ _ _ = zipWith4 _ r.y1 _ _ _
      rw [ihy1]
    · show c.nf + k + 1 = (k + 1) * (k + 1 + 1) / 2
      rw [ihnf]
      have hx : (k + 1) * (k + 1 + 1) = k * (k + 1) + 2 * (k + 1) := by ring
      omega
    · show c.ng + k + 1 = (k + 1) * (k + 1 + 1) / 2
      rw [ihng]
      have hx : (k + 1) * (k + 1 + 1) = k * (k + 1) + 2 * (k + 1) := by ring
      omega

end Variants

/-- C9: for pure `f` and `g`, `step` is extensionally equal to the
optimized variant that evaluates each of `f` and `g` exactly once per
stage and reuses the cached values in all later inner loops; the
instrumented step records exactly `STAGES·(STAGES+1)/2` calls to each of
`f` and `g` whenever it runs (and the precondition error otherwise). -/
theorem claim_C9_reevaluation (tab : Tableau) (sde : SDE) (bm : ℚ → State)
    (trapApprox : (ℚ → State) → ℚ → State → ℚ → ℚ → State)
    (trapezoidal : Bool) (Z : ℕ → ℚ) (sq : ℚ → ℚ)
    (t0 : ℚ) (y0 : State) (dt : ℚ) :
    stepOpt tab sde bm trapApprox trapezoidal Z sq t0 y0 dt
      = step tab sde bm trapApprox trapezoidal Z sq t0 y0 dt
    ∧ stepCount tab sde bm trapApprox trapezoidal Z sq t0 y0 dt
      = (step tab sde bm trapApprox trapezoidal Z sq t0 y0 dt).map
          (fun r => (r, tab.STAGES * (tab.STAGES + 1) / 2,
            tab.STAGES * (tab.STAGES + 1) / 2)) := by
  by_cases h : 0 < dt
  · obtain ⟨-, -, hy1opt, -, -, -⟩ :=
      runStagesOpt_spec tab sde t0 y0 dt (sq dt) (Ik bm t0 dt) (Ikk dt (Ik bm t0 dt))
        (Ik0 trapApprox bm trapezoidal Z sq t0 y0 dt (sq dt) (Ik bm t0 dt))
        (Ikkk dt (Ik bm t0 dt)) tab.STAGES
    obtain ⟨-, -, hy1n, hnf, hng⟩ :=
      runStagesN_spec tab sde t0 y0 dt (sq dt) (Ik bm t0 dt) (Ikk dt (Ik bm t0 dt))
        (Ik0 trapApprox bm trapezoidal Z sq t0 y0 dt (sq dt) (Ik bm t0 dt))
        (Ikkk dt (Ik bm t0 dt)) tab.STAGES
    cases hik : IkChecked bm t0 dt y0 with
    | error e =>
      constructor
      · simp [stepOpt, step, h, hik, Except.map]
      · simp [stepCount, step, h, hik, Except.map]
    | ok v =>
      constructor
      · simp only [stepOpt, step, stepStages, h, if_true, reduceIte, hik, Except.map]
        rw [hy1opt]
      · simp only [stepCount, step, stepStages, h, if_true, reduceIte, hik, Except.map]
        rw [hy1n, hnf, hng]
  · simp [stepOpt, step, stepCount, h, Except.map]

end TorchSDE
